import Mathlib

/-!
Verification of the day-dreamer test-execution engine
(backend/app/utils/variable_resolver.py, assertion_validator.py, http_client.py,
backend/app/services/{variable_service,test_execution_service}.py,
backend/app/tasks/test_execution.py, backend/app/models/*.py)
against its natural-language specification.

Python dicts are modelled as association lists built with insert-overwrite
(`dput`); Python machine floats are modelled by exact rationals (no claim in
scope depends on binary rounding); external libraries used by the code
(`json.loads`, `re.search`, `jsonpath_ng`, the `random`/`uuid` generators) are
passed in as an explicit `Ext` record of total functions.
-/

namespace DayDreamer

/-- Association-list model of a Python `dict` whose values are strings. -/
abbrev SDict := List (String × String)

/-- `d[k] = v` on a Python dict: overwrite the existing binding in place, or
append a fresh one. -/
def dput (d : SDict) (k v : String) : SDict :=
  match d with
  | [] => [(k, v)]
  | (k0, v0) :: t => if k0 = k then (k0, v) :: t else (k0, v0) :: dput t k v

/-- `d.get(k)` on a Python dict. -/
def dget (d : SDict) (k : String) : Option String :=
  match d with
  | [] => none
  | (k0, v0) :: t => if k0 = k then some v0 else dget t k

/-- Build a dict from a list of pairs, later pairs overwriting earlier ones
(Python `dict(...)` / repeated assignment). -/
def dictOf (l : List (String × String)) : SDict :=
  l.foldl (fun d kv => dput d kv.1 kv.2) []

theorem dget_dput_self (d : SDict) (k v : String) : dget (dput d k v) k = some v := by
  induction d with
  | nil => simp [dput, dget]
  | cons h t ih =>
    obtain ⟨k0, v0⟩ := h
    by_cases hk : k0 = k <;> simp [dput, dget, hk, ih]

theorem dget_dput_ne (d : SDict) (k k' v : String) (h : k ≠ k') :
    dget (dput d k v) k' = dget d k' := by
  induction d with
  | nil => simp [dput, dget, h]
  | cons hd t ih =>
    obtain ⟨k0, v0⟩ := hd
    by_cases hk : k0 = k
    · subst hk
      simp [dput, dget, h]
    · simp [dput, dget, hk, ih]

/-- Folding a list of assignments over a base dict: a key set by the
assignments wins; otherwise the base binding shows through. -/
theorem dget_foldl_dput (l : List (String × String)) (base : SDict) (x : String) :
    dget (l.foldl (fun d kv => dput d kv.1 kv.2) base) x =
      (dget (dictOf l) x).elim (dget base x) some := by
  induction l generalizing base with
  | nil => simp [dictOf, dget]
  | cons hd t ih =>
    obtain ⟨k, w⟩ := hd
    show dget (t.foldl _ (dput base k w)) x = _
    rw [ih (dput base k w)]
    have hrhs : dget (dictOf ((k, w) :: t)) x =
        (dget (dictOf t) x).elim (dget (dput [] k w) x) some := by
      show dget (t.foldl _ (dput [] k w)) x = _
      rw [ih (dput [] k w)]
    rw [hrhs]
    cases hfold : dget (dictOf t) x with
    | some v => rfl
    | none =>
      by_cases hk : k = x
      · subst hk
        simp [dget_dput_self, dput, dget]
      · simp [dget_dput_ne _ _ _ _ hk, dput, dget, hk]

/-- Convenient corollary: if the update list defines `x`, the folded dict
yields that definition no matter what the base holds. -/
theorem dget_foldl_dput_of_mem (l : List (String × String)) (base : SDict) (x v : String)
    (h : dget (dictOf l) x = some v) :
    dget (l.foldl (fun d kv => dput d kv.1 kv.2) base) x = some v := by
  rw [dget_foldl_dput, h]
  rfl

/-- If the update list does not define `x`, the base binding shows through. -/
theorem dget_foldl_dput_of_none (l : List (String × String)) (base : SDict) (x : String)
    (h : dget (dictOf l) x = none) :
    dget (l.foldl (fun d kv => dput d kv.1 kv.2) base) x = dget base x := by
  rw [dget_foldl_dput, h]
  rfl

/-! ### Character utilities (Python `str.strip`, `\w`, digits) -/

/-- Python whitespace as far as the repository's data can exercise it
(ASCII; the source's `.strip()` and `float()` strip these). -/
def isPyWs (c : Char) : Bool :=
  c = ' ' || c = '\t' || c = '\n' || c = '\r' || c = '\x0b' || c = '\x0c'

/-- `str.strip()` on a character list: drop whitespace from both ends. -/
def pystrip (l : List Char) : List Char :=
  ((l.dropWhile isPyWs).reverse.dropWhile isPyWs).reverse

/-- Regex `\w` (identifier characters; the repository only uses ASCII names). -/
def isWordChar (c : Char) : Bool :=
  c.isAlphanum || c = '_'

/-- Numeric value of a digit run (most significant first). -/
def digitsVal (l : List Char) : Nat :=
  l.foldl (fun acc c => acc * 10 + (c.toNat - '0'.toNat)) 0

/-- Python `int(s)` on the already-stripped character list: optional sign then
one or more digits, consuming the whole input. -/
def parseIntStripped (cs : List Char) : Option Int :=
  let (sign, body) :=
    match cs with
    | '+' :: t => ((1 : Int), t)
    | '-' :: t => ((-1 : Int), t)
    | t => ((1 : Int), t)
  if body ≠ [] ∧ body.all Char.isDigit then some (sign * digitsVal body) else none

/-- Python `int(s)`: strip whitespace, then parse a signed digit run.
(Digit-group underscores are not modelled; the repository never writes them.) -/
def parsePyInt (cs : List Char) : Option Int :=
  parseIntStripped (pystrip cs)

/-- Exponent suffix of a float literal: empty, or `e`/`E` with signed digits.
Returns the exponent, or `none` when the suffix is malformed. -/
def parseExpSuffix (cs : List Char) : Option Int :=
  match cs with
  | [] => some 0
  | 'e' :: t => parseIntStripped t
  | 'E' :: t => parseIntStripped t
  | _ => none

/-- Value of a fractional digit run as a rational in `[0, 1)`. -/
def fracVal (l : List Char) : ℚ :=
  (digitsVal l : ℚ) / ((10 : ℚ) ^ l.length)

/-- Leading sign of a numeric literal. -/
def splitSign (cs : List Char) : ℚ × List Char :=
  match cs with
  | '+' :: t => ((1 : ℚ), t)
  | '-' :: t => ((-1 : ℚ), t)
  | t => ((1 : ℚ), t)

theorem splitSign_cons (c : Char) (cs : List Char) (h1 : c ≠ '+') (h2 : c ≠ '-') :
    splitSign (c :: cs) = (1, c :: cs) := by
  unfold splitSign
  split
  next t heq => exact absurd (List.cons.inj heq).1 h1
  next t heq => exact absurd (List.cons.inj heq).1 h2
  next => rfl

/-- Python `float(s)` modelled over exact rationals: strip whitespace, optional
sign, digits with optional decimal point, optional exponent; the whole input
must be consumed and at least one digit must appear.  `inf`/`nan` literals and
digit-group underscores are not modelled (no claim in scope uses them); binary
rounding is not modelled (comparisons in scope are exact). -/
def parsePyFloat (cs0 : List Char) : Option ℚ :=
  let cs := pystrip cs0
  let sign := (splitSign cs).1
  let body := (splitSign cs).2
  let ip := body.takeWhile Char.isDigit
  let r1 := body.dropWhile Char.isDigit
  match r1 with
  | '.' :: r2 =>
    let fp := r2.takeWhile Char.isDigit
    let r3 := r2.dropWhile Char.isDigit
    if ip = [] ∧ fp = [] then none
    else
      match parseExpSuffix r3 with
      | some e => some (sign * ((digitsVal ip : ℚ) + fracVal fp) * (10 : ℚ) ^ e)
      | none => none
  | _ =>
    if ip = [] then none
    else
      match parseExpSuffix r1 with
      | some e => some (sign * (digitsVal ip : ℚ) * (10 : ℚ) ^ e)
      | none => none

/-! ### JSON / Python values -/

/-- The duck-typed values the engine passes around (decoded JSON plus Python's
`None`, `bool`, `int`, `float`, `str`). -/
inductive JValue where
  | jnull : JValue
  | jbool : Bool → JValue
  | jint : Int → JValue
  | jfloat : ℚ → JValue
  | jstr : String → JValue
  | jarr : List JValue → JValue
  | jobj : List (String × JValue) → JValue

open JValue

/-- Canonical textual form of a rational standing in for a Python float.
Python's `repr` of a binary float is its shortest round-tripping decimal;
no claim in scope observes it, so the model uses the rational's own repr. -/
def floatRepr (q : ℚ) : String :=
  toString q

mutual

/-- Python `str(value)` for the values above (`None`/`True`/`False`, decimal
integers, list/dict reprs with single-quoted strings). -/
def pyStr : JValue → String
  | jnull => "None"
  | jbool b => if b then "True" else "False"
  | jint n => toString n
  | jfloat q => floatRepr q
  | jstr s => s
  | jarr l => "[" ++ pyReprList l ++ "]"
  | jobj l => "\x7b" ++ pyReprPairs l ++ "\x7d"

/-- Python `repr(value)` as it appears inside `str` of a container
(strings quoted; escape sequences are not modelled, no claim prints them). -/
def pyRepr : JValue → String
  | jnull => "None"
  | jbool b => if b then "True" else "False"
  | jint n => toString n
  | jfloat q => floatRepr q
  | jstr s => "\x27" ++ s ++ "\x27"
  | jarr l => "[" ++ pyReprList l ++ "]"
  | jobj l => "\x7b" ++ pyReprPairs l ++ "\x7d"

def pyReprList : List JValue → String
  | [] => ""
  | [x] => pyRepr x
  | x :: xs => pyRepr x ++ ", " ++ pyReprList xs

def pyReprPairs : List (String × JValue) → String
  | [] => ""
  | [(k, v)] => "\x27" ++ k ++ "\x27: " ++ pyRepr v
  | (k, v) :: xs => "\x27" ++ k ++ "\x27: " ++ pyRepr v ++ ", " ++ pyReprPairs xs

end

mutual

/-- `json.dumps(value, ensure_ascii=False)` (double quotes, `true`/`false`/
`null`; string escaping is not modelled, no claim prints such strings). -/
def jsonDumps : JValue → String
  | jnull => "null"
  | jbool b => if b then "true" else "false"
  | jint n => toString n
  | jfloat q => floatRepr q
  | jstr s => "\x22" ++ s ++ "\x22"
  | jarr l => "[" ++ jsonDumpsList l ++ "]"
  | jobj l => "\x7b" ++ jsonDumpsPairs l ++ "\x7d"

def jsonDumpsList : List JValue → String
  | [] => ""
  | [x] => jsonDumps x
  | x :: xs => jsonDumps x ++ ", " ++ jsonDumpsList xs

def jsonDumpsPairs : List (String × JValue) → String
  | [] => ""
  | [(k, v)] => "\x22" ++ k ++ "\x22: " ++ jsonDumps v
  | (k, v) :: xs => "\x22" ++ k ++ "\x22: " ++ jsonDumps v ++ ", " ++ jsonDumpsPairs xs

end

/-- Python `float(value)`: numbers and bools convert; numeric strings parse;
`None`, containers and non-numeric strings raise (`none` here). -/
def pyFloat : JValue → Option ℚ
  | jnull => none
  | jbool b => some (if b then 1 else 0)
  | jint n => some (n : ℚ)
  | jfloat q => some q
  | jstr s => parsePyFloat s.data
  | jarr _ => none
  | jobj _ => none

/-- Numeric view used by Python `==` (bool is a subtype of int). -/
def pyNum : JValue → Option ℚ
  | jbool b => some (if b then 1 else 0)
  | jint n => some (n : ℚ)
  | jfloat q => some q
  | _ => none

mutual

/-- Python `==` on the values above: numbers (including bools) compare by
value, strings by content, containers structurally, everything else only to
itself; never raises. -/
def pyEq : JValue → JValue → Bool
  | jnull, jnull => true
  | jstr a, jstr b => a = b
  | jarr a, jarr b => pyEqList a b
  | jobj a, jobj b => pyEqPairs a b
  | a, b =>
    match pyNum a, pyNum b with
    | some x, some y => x = y
    | _, _ => false

def pyEqList : List JValue → List JValue → Bool
  | [], [] => true
  | a :: as_, b :: bs => pyEq a b && pyEqList as_ bs
  | _, _ => false

/-- Dict equality compared pointwise in order (the repository only compares
dicts built in matching order; Python's order-insensitive dict equality is not
distinguishable by any claim in scope). -/
def pyEqPairs : List (String × JValue) → List (String × JValue) → Bool
  | [], [] => true
  | (k, v) :: as_, (k1, v1) :: bs => k = k1 && pyEq v v1 && pyEqPairs as_ bs
  | _, _ => false

end

/-- `obj.get(key)` on a JSON object; `none` when the value is not a dict or
the key is missing. -/
def jget : JValue → String → Option JValue
  | jobj l, k => (l.find? fun kv => kv.1 = k).map Prod.snd
  | _, _ => none

/-! ### External collaborators

The repository calls several libraries whose behaviour is outside the source
under verification; they enter the model as an explicit record of total
functions so every definition below stays executable. -/

/-- External functions used by the engine: `json.loads`, `re.search`,
`jsonpath_ng`'s `find`, and the generators behind the template built-ins
(`random`, `uuid`, `time`, `datetime`). -/
structure Ext where
  jsonLoads : String → Option JValue
  regexSearch : String → String → Bool
  jsonPathFind : String → JValue → List JValue
  randomStringGen : Int → String
  randomIntGen : Int → Int → Int
  timestampGen : Int
  datetimeGen : String → String
  uuidGen : String
  randomEmailUser : String
  randomPhoneGen : String
  base64Encode : String → String

/-- A fixed, inert instance of the external record, for closed evaluations
whose outcome does not depend on the external functions. -/
def ext0 : Ext where
  jsonLoads _ := none
  regexSearch _ _ := false
  jsonPathFind _ _ := []
  randomStringGen _ := ""
  randomIntGen _ _ := 0
  timestampGen := 0
  datetimeGen _ := ""
  uuidGen := ""
  randomEmailUser := ""
  randomPhoneGen := ""
  base64Encode _ := ""

/-! ### Variable store (app/models/variable.py, app/services/variable_service.py) -/

inductive VariableScope where
  | global | environment | personal | temporary
deriving DecidableEq, Repr

inductive VariableType where
  | vstring | vnumber | vboolean | vjson | vfile
deriving DecidableEq, Repr

/-- One row of the `variables` table.  `created_at` is the row's
creation time as integral seconds (the source stores a datetime; only
whole-second differences are compared). -/
structure VarRecord where
  id : Nat
  name : String
  value : String
  vtype : VariableType := .vstring
  scope : VariableScope
  environment_id : Option Nat := none
  user_id : Option Nat := none
  session_id : Option String := none
  created_by : Nat := 0
  created_at : Int := 0
  is_active : Bool := true
  is_sensitive : Bool := false
deriving DecidableEq, Repr

/-- `Variable.get_typed_value`: string passes through; number parses as float
when a dot is present else as int, keeping the raw string on failure; boolean
tests the lowered value against the truthy literals; json decodes via
`json.loads` keeping the raw string on failure; file passes through. -/
def getTypedValue (ext : Ext) (v : VarRecord) : JValue :=
  match v.vtype with
  | .vstring => jstr v.value
  | .vnumber =>
    if '.' ∈ v.value.data then
      match parsePyFloat v.value.data with
      | some q => jfloat q
      | none => jstr v.value
    else
      match parsePyInt v.value.data with
      | some n => jint n
      | none => jstr v.value
  | .vboolean => jbool (v.value.toLower ∈ ["true", "1", "yes", "on"])
  | .vjson =>
    match ext.jsonLoads v.value with
    | some j => j
    | none => jstr v.value
  | .vfile => jstr v.value

/-- Python truthiness of an optional integer id (`if environment_id:`):
`None` and `0` are falsy. -/
def truthyNat : Option Nat → Bool
  | some n => n ≠ 0
  | none => false

/-- `VariableService.create_variable`: reject a duplicate active name in the
same (scope, environment, user, session); for environment-scoped rows
check the environment exists (`activeEnvs` holds the active environment ids);
otherwise append the new active row.  `nextId` stands for the primary-key
sequence, `now` for the row's `created_at`. -/
def create_variable (db : List VarRecord) (activeEnvs : List Nat) (nextId : Nat) (now : Int)
    (name value : String) (scope : VariableScope) (created_by : Nat)
    (vtype : VariableType := .vstring) (environment_id : Option Nat := none)
    (user_id : Option Nat := none) (session_id : Option String := none) :
    Except String (List VarRecord) :=
  if (db.find? fun v => decide (v.name = name ∧ v.scope = scope ∧
      v.environment_id = environment_id ∧ v.user_id = user_id ∧
      v.session_id = session_id ∧ v.is_active = true)).isSome then
    .error ("变量 \x27" ++ name ++ "\x27 在当前作用域内已存在")
  else if scope = .environment ∧ truthyNat environment_id ∧
      ¬ (environment_id.getD 0) ∈ activeEnvs then
    .error ("环境 ID 不存在")
  else
    .ok (db ++ [{ id := nextId, name := name, value := value, vtype := vtype,
                  scope := scope, environment_id := environment_id, user_id := user_id,
                  session_id := session_id, created_by := created_by, created_at := now }])

/-- Clearing the `is_active` flag of the row with the given primary key. -/
def deactivateRow (variable_id : Nat) (v : VarRecord) : VarRecord :=
  if v.id = variable_id then { v with is_active := false } else v

/-- `VariableService.delete_variable`: soft delete — find the active row by
primary key (ids are unique) and clear its `is_active` flag; `none` models the
not-found error. -/
def delete_variable (db : List VarRecord) (variable_id : Nat) : Option (List VarRecord) :=
  if (db.find? fun v => decide (v.id = variable_id ∧ v.is_active = true)).isSome then
    some (db.map (deactivateRow variable_id))
  else none

/-- `VariableService.cleanup_temporary_variables`: deactivate every *active
temporary variable created more than `max_age_hours` hours ago* (for any
session), returning the new table and the number of rows touched.  Note the
filter is purely age-based: `session_id` is not consulted. -/
def cleanup_temporary_variables (db : List VarRecord) (now : Int) (max_age_hours : Int := 24) :
    List VarRecord × Nat :=
  let cutoff := now - max_age_hours * 3600
  let targeted := fun v : VarRecord =>
    decide (v.scope = .temporary ∧ v.created_at < cutoff ∧ v.is_active = true)
  (db.map fun v => if targeted v then { v with is_active := false } else v,
   (db.filter targeted).length)

/-! ### Variable resolver (app/utils/variable_resolver.py) -/

/-- `VariableResolver._get_available_variables`: one flat dict built by
successive overwrites — global rows first, then (when the id is truthy)
environment rows, then personal rows, finally the `temp_variables` dict.
No filter consults `is_active`. -/
def availableVariables (ext : Ext) (db : List VarRecord) (user_id environment_id : Option Nat)
    (temp_variables : List (String × String)) : SDict :=
  let varsd : SDict := []
  let varsd := (db.filter fun v => decide (v.scope = .global)).foldl
    (fun d v => dput d v.name (pyStr (getTypedValue ext v))) varsd
  let varsd :=
    if truthyNat environment_id then
      (db.filter fun v => decide (v.scope = .environment ∧ v.environment_id = environment_id)).foldl
        (fun d v => dput d v.name (pyStr (getTypedValue ext v))) varsd
    else varsd
  let varsd :=
    if truthyNat user_id then
      (db.filter fun v => decide (v.scope = .personal ∧ v.user_id = user_id)).foldl
        (fun d v => dput d v.name (pyStr (getTypedValue ext v))) varsd
    else varsd
  let varsd :=
    if temp_variables ≠ [] then
      temp_variables.foldl (fun d kv => dput d kv.1 kv.2) varsd
    else varsd
  varsd

/-- The regex `(\w+)\((.*)\)` applied with `re.match`: a leading identifier,
an opening parenthesis, then a greedy argument segment — `.` does not cross a
newline, and the greedy `.*` ends at the last `)` of that segment. -/
def parseFuncCall (cs : List Char) : Option (String × String) :=
  let name := cs.takeWhile isWordChar
  let rest := cs.dropWhile isWordChar
  match name, rest with
  | [], _ => none
  | _, '(' :: tail =>
    let seg := tail.takeWhile (fun c => c ≠ '\n')
    match seg.reverse.dropWhile (fun c => c ≠ ')') with
    | ')' :: argsR => some (String.mk name, String.mk argsR.reverse)
    | _ => none
  | _, _ => none

/-- One parsed function argument: quoted string, int, float, or raw text. -/
inductive PyArg where
  | aint : Int → PyArg
  | afloat : ℚ → PyArg
  | astr : String → PyArg
deriving DecidableEq, Repr

/-- Argument parsing from `_execute_function`: strip, unquote `"…"` or `'…'`,
else try `int`, then `float`, else keep the raw text. -/
def parseArg (s : String) : PyArg :=
  let t := String.mk (pystrip s.data)
  if (t.data.head? = some '\x22' ∧ t.data.getLast? = some '\x22') ∨
      (t.data.head? = some '\x27' ∧ t.data.getLast? = some '\x27') then
    .astr (String.mk ((t.data.drop 1).dropLast))
  else
    match parsePyInt t.data with
    | some n => .aint n
    | none =>
      match parsePyFloat t.data with
      | some q => .afloat q
      | none => .astr t

/-- Python `str(...)` of a parsed argument (used where f-strings format it). -/
def pyArgStr : PyArg → String
  | .aint n => toString n
  | .afloat q => floatRepr q
  | .astr s => s

/-- `VariableResolver._call_builtin_function`: dispatch on the function name;
generator outputs come from `ext`; an argument of the wrong Python type makes
the branch raise, which the surrounding handler turns into `{\x7bem\x7d}`-style
markers — `{\x7berror:NAME\x7d}` for a raising branch, and
`{\x7bunknown_function:NAME\x7d}` for a name outside the registry. -/
def callBuiltinFunction (ext : Ext) (func_name : String) (args : List PyArg) : String :=
  if func_name = "randomString" then
    match args.head? with
    | none => ext.randomStringGen 10
    | some (.aint n) => ext.randomStringGen n
    | some _ => "\x7b\x7berror:randomString\x7d\x7d"
  else if func_name = "randomInt" then
    let minA := (args.get? 0).getD (.aint 1)
    let maxA := (args.get? 1).getD (.aint 100)
    match minA, maxA with
    | .aint lo, .aint hi =>
      if lo ≤ hi then toString (ext.randomIntGen lo hi) else "\x7b\x7berror:randomInt\x7d\x7d"
    | _, _ => "\x7b\x7berror:randomInt\x7d\x7d"
  else if func_name = "timestamp" then
    toString ext.timestampGen
  else if func_name = "datetime" then
    match args.head? with
    | none => ext.datetimeGen "%Y-%m-%d %H:%M:%S"
    | some (.astr f) => ext.datetimeGen f
    | some _ => "\x7b\x7berror:datetime\x7d\x7d"
  else if func_name = "uuid" then
    ext.uuidGen
  else if func_name = "randomEmail" then
    let domain := (args.head?).getD (.astr "example.com")
    ext.randomEmailUser ++ "@" ++ pyArgStr domain
  else if func_name = "randomPhone" then
    ext.randomPhoneGen
  else if func_name = "base64" then
    match args.head? with
    | none => ext.base64Encode "test"
    | some (.astr s) => ext.base64Encode s
    | some _ => "\x7b\x7berror:base64\x7d\x7d"
  else
    "\x7b\x7bunknown_function:" ++ func_name ++ "\x7d\x7d"

/-- `VariableResolver._execute_function`: parse `name(args)`; when the call
regex does not match, return the placeholder rebuilt around the (stripped)
call text; otherwise split the argument segment on commas and dispatch. -/
def executeFunction (ext : Ext) (function_call : String) : String :=
  match parseFuncCall function_call.data with
  | none => "\x7b\x7b" ++ function_call ++ "\x7d\x7d"
  | some (fname, argsStr) =>
    let args :=
      if pystrip argsStr.data ≠ [] then (argsStr.split (· = ',')).map parseArg else []
    callBuiltinFunction ext fname args

/-- `replace_variable` inside `_resolve_string`: strip the captured group; a
name containing both parentheses is a function call; otherwise substitute the
variable or keep the whole match (`match.group(0)`) verbatim. -/
def replaceVariable (ext : Ext) (varsd : SDict) (inner : List Char) : String :=
  let var_name := String.mk (pystrip inner)
  if '(' ∈ var_name.data ∧ ')' ∈ var_name.data then
    executeFunction ext var_name
  else
    (dget varsd var_name).getD (String.mk ('{' :: '{' :: (inner ++ ['}', '}'])))

theorem listLengthDropWhileLe {α : Type} (p : α → Bool) (l : List α) :
    (l.dropWhile p).length ≤ l.length := by
  induction l with
  | nil => simp [List.dropWhile]
  | cons h t ih =>
    by_cases hp : p h
    · simp only [List.dropWhile, hp]
      exact Nat.le_succ_of_le ih
    · simp [List.dropWhile, hp]

/-- The scan of `re.sub(r'\{\{([^}]+)\}\}', ...)`: left to right, at `{{` take
the maximal nonempty run of non-`}` characters and require `}}`; on a match,
emit the replacement and continue after it; otherwise copy one character.
`fuel` only forces structural termination: every step strictly shortens the
remaining input, so any `fuel ≥ cs.length` (the caller passes `cs.length`)
never reaches the `0` case on a nonempty input. -/
def resolveCharsFuel (ext : Ext) (varsd : SDict) : Nat → List Char → List Char
  | 0, cs => cs
  | fuel + 1, cs =>
    match cs with
    | '{' :: '{' :: rest =>
      let inner := rest.takeWhile (fun c => c ≠ '}')
      let after := rest.dropWhile (fun c => c ≠ '}')
      if inner ≠ [] ∧ after.take 2 = ['}', '}'] then
        (replaceVariable ext varsd inner).data ++ resolveCharsFuel ext varsd fuel (after.drop 2)
      else
        '{' :: resolveCharsFuel ext varsd fuel ('{' :: rest)
    | c :: rest => c :: resolveCharsFuel ext varsd fuel rest
    | [] => []

/-- The full scan of one string. -/
def resolveChars (ext : Ext) (varsd : SDict) (cs : List Char) : List Char :=
  resolveCharsFuel ext varsd cs.length cs

/-- `VariableResolver._resolve_string`. -/
def resolveString (ext : Ext) (varsd : SDict) (text : String) : String :=
  String.mk (resolveChars ext varsd text.data)

mutual

/-- `VariableResolver._resolve_data`: strings are scanned, dicts resolved
value-by-value preserving order, lists element-by-element, scalars unchanged. -/
def resolveData (ext : Ext) (varsd : SDict) : JValue → JValue
  | jstr s => jstr (resolveString ext varsd s)
  | jobj l => jobj (resolveDataPairs ext varsd l)
  | jarr l => jarr (resolveDataList ext varsd l)
  | jnull => jnull
  | jbool b => jbool b
  | jint n => jint n
  | jfloat q => jfloat q

def resolveDataList (ext : Ext) (varsd : SDict) : List JValue → List JValue
  | [] => []
  | x :: xs => resolveData ext varsd x :: resolveDataList ext varsd xs

def resolveDataPairs (ext : Ext) (varsd : SDict) :
    List (String × JValue) → List (String × JValue)
  | [] => []
  | (k, v) :: xs => (k, resolveData ext varsd v) :: resolveDataPairs ext varsd xs

end

/-- `VariableResolver.resolve_variables`: build the available-variable dict and
resolve the data against it. -/
def resolveVariables (ext : Ext) (db : List VarRecord) (data : JValue)
    (user_id environment_id : Option Nat) (temp_variables : List (String × String)) : JValue :=
  resolveData ext (availableVariables ext db user_id environment_id temp_variables) data

/-! ### Assertion engine (app/utils/assertion_validator.py) -/

/-- One assertion rule as the engine reads it off the stored dict. -/
structure AssertionRule where
  atype : String
  field : Option String := none
  operator : String
  expected : JValue
  description : Option String := none

/-- The normalized response dict built by `HttpClient._process_response`. -/
structure NormalizedResponse where
  status_code : Int
  response_time : ℚ
  response_data : JValue
  headers : List (String × String)
  url : String
  request_method : String

/-- Python `round(x, 2)`: nearest at two decimals, ties to even. -/
def roundHalfEven (q : ℚ) : Int :=
  let f := ⌊q⌋
  let frac := q - (f : ℚ)
  if frac < 1 / 2 then f
  else if frac > 1 / 2 then f + 1
  else if Even f then f else f + 1

/-- Two-decimal rounding used for response times and pass rates. -/
def round2 (q : ℚ) : ℚ :=
  (roundHalfEven (q * 100) : ℚ) / 100

/-- `AssertionValidator._extract_json_path_value`: run the `jsonpath_ng` find
on the decoded body and keep the first match; any failure yields `none`. -/
def extractJsonPathValue (ext : Ext) (resp : NormalizedResponse) (json_path : String) :
    Option JValue :=
  match ext.jsonPathFind json_path resp.response_data with
  | [] => none
  | v :: _ => some v

/-- String form of the body used by `contains`/`regex`: `json.dumps` for a
dict, Python `str` otherwise. -/
def bodyText (resp : NormalizedResponse) : String :=
  match resp.response_data with
  | jobj l => jsonDumps (jobj l)
  | b => pyStr b

/-- `AssertionValidator._get_actual_value`; `Except.error` is the raised
`ValueError`.  A `json_path` rule with a missing or empty `field` raises. -/
def getActualValue (ext : Ext) (atype : String) (field : Option String)
    (resp : NormalizedResponse) (response_time : ℚ) : Except String JValue :=
  if atype = "status_code" then .ok (jint resp.status_code)
  else if atype = "response_time" then .ok (jfloat response_time)
  else if atype = "json_path" then
    match field with
    | none => .error "json_path断言需要指定field"
    | some f =>
      if f = "" then .error "json_path断言需要指定field"
      else .ok ((extractJsonPathValue ext resp f).getD jnull)
  else if atype = "contains" then .ok (jstr (bodyText resp))
  else if atype = "equals" then
    match field with
    | some f => .ok ((extractJsonPathValue ext resp f).getD jnull)
    | none => .ok resp.response_data
  else if atype = "regex" then .ok (jstr (bodyText resp))
  else .error ("不支持的断言类型: " ++ atype)

/-- First stage of `_safe_compare` for the numeric operators: coerce both
operands with `float(...)`; `none` is the raised coercion error. -/
def floatStage (a e : JValue) (cmp : ℚ → ℚ → Bool) : Option Bool :=
  match pyFloat a, pyFloat e with
  | some x, some y => some (cmp x y)
  | _, _ => none

/-- `AssertionValidator._safe_compare` applied to a float comparison: try the
operands as given; on a coercion error retry on `str(...)` of both; a second
failure returns `False`. -/
def safeCompareNum (a e : JValue) (cmp : ℚ → ℚ → Bool) : Bool :=
  match floatStage a e cmp with
  | some b => b
  | none =>
    match floatStage (jstr (pyStr a)) (jstr (pyStr e)) cmp with
    | some b => b
    | none => false

/-- Substring test on character lists (Python `needle in hay`). -/
def strContainsChars (hay needle : List Char) : Bool :=
  match hay with
  | [] => needle = []
  | _ :: t => needle.isPrefixOf hay || strContainsChars t needle

/-- `AssertionValidator._compare_values`: `eq`/`ne` by Python equality (its
string-form fallback inside `_safe_compare` is unreachable because `==` on
these values never raises); `gt`/`lt`/`gte`/`lte` by float coercion through
`_safe_compare`; `contains`/`not_contains` by substring on string forms with
`None` as the empty string; `regex` by `re.search`; an unsupported operator
raises inside the try block, which returns `False`. -/
def compareValues (ext : Ext) (actual expected : JValue) (operator : String) : Bool :=
  if operator = "eq" then pyEq actual expected
  else if operator = "ne" then !(pyEq actual expected)
  else if operator = "gt" then safeCompareNum actual expected (fun x y => decide (x > y))
  else if operator = "lt" then safeCompareNum actual expected (fun x y => decide (x < y))
  else if operator = "gte" then safeCompareNum actual expected (fun x y => decide (x ≥ y))
  else if operator = "lte" then safeCompareNum actual expected (fun x y => decide (x ≤ y))
  else if operator = "contains" then
    let actual_str := match actual with | jnull => "" | a => pyStr a
    strContainsChars actual_str.data (pyStr expected).data
  else if operator = "not_contains" then
    let actual_str := match actual with | jnull => "" | a => pyStr a
    !(strContainsChars actual_str.data (pyStr expected).data)
  else if operator = "regex" then
    let actual_str := match actual with | jnull => "" | a => pyStr a
    ext.regexSearch (pyStr expected) actual_str
  else false

/-- One entry of the per-rule outcome list. -/
structure AssertionOutcome where
  rule : AssertionRule
  actual_value : Option JValue
  expected_value : JValue
  passed : Bool
  message : String

/-- `AssertionValidator._get_assertion_message`. -/
def assertionMessage (description : String) (actual : Option JValue) (expected : JValue)
    (passed : Bool) : String :=
  if passed then "✓ " ++ description
  else
    "✗ " ++ description ++ " - 实际: " ++
      (match actual with | some a => pyStr a | none => "None") ++
      ", 期望: " ++ pyStr expected

/-- `AssertionValidator.validate_assertion`: extract, compare, build the
outcome; an extraction error becomes a failed outcome with a `None` actual
value and the exception message. -/
def validateAssertion (ext : Ext) (rule : AssertionRule) (resp : NormalizedResponse)
    (response_time : ℚ) : AssertionOutcome :=
  let description :=
    rule.description.getD (rule.atype ++ " " ++ rule.operator ++ " " ++ pyStr rule.expected)
  match getActualValue ext rule.atype rule.field resp response_time with
  | .ok actual =>
    let passed := compareValues ext actual rule.expected rule.operator
    { rule := rule, actual_value := some actual, expected_value := rule.expected,
      passed := passed,
      message := assertionMessage description (some actual) rule.expected passed }
  | .error e =>
    { rule := rule, actual_value := none, expected_value := rule.expected, passed := false,
      message := "断言验证异常: " ++ e }

/-- The aggregate returned by `validate_all_assertions`.  `pass_rate` is an
`Option` because the early return for an empty rule list omits the key. -/
structure AssertionSummary where
  total : Nat
  passed : Nat
  failed : Nat
  results : List AssertionOutcome
  all_passed : Bool
  pass_rate : Option ℚ

/-- `AssertionValidator.validate_all_assertions`: empty input takes the early
return (no `pass_rate` key); otherwise every rule is evaluated in order and
counted, and `pass_rate` is the rounded percentage (`0` when `total = 0`,
which the guarded branch cannot reach). -/
def validateAllAssertions (ext : Ext) (assertions : List AssertionRule)
    (resp : NormalizedResponse) (response_time : ℚ) : AssertionSummary :=
  if assertions.isEmpty then
    { total := 0, passed := 0, failed := 0, results := [], all_passed := true,
      pass_rate := none }
  else
    let results := assertions.map fun a => validateAssertion ext a resp response_time
    let passed_count := (results.filter (·.passed)).length
    let total_count := assertions.length
    let failed_count := total_count - passed_count
    { total := total_count, passed := passed_count, failed := failed_count,
      results := results, all_passed := failed_count = 0,
      pass_rate :=
        some (if 0 < total_count then round2 ((passed_count : ℚ) / (total_count : ℚ) * 100)
              else 0) }

/-! ### HTTP transport (app/utils/http_client.py) -/

/-- What came back from the network layer before normalization; `jsonBody` is
the result of a successful `response.json()`. -/
structure RawResponse where
  status_code : Int
  headers : List (String × String)
  jsonBody : Option JValue := none
  text : String := ""
  url : String := ""
  method : String := "GET"

/-- The disjoint ways one `httpx` exchange can end, mirroring the `except`
branches of `HttpClient.request`: a response (any status code), a timeout, a
connection error, an `HTTPStatusError` carrying its response, or any other
exception. -/
inductive TransportOutcome where
  | response : RawResponse → TransportOutcome
  | timeout : TransportOutcome
  | connectError : String → TransportOutcome
  | statusError : RawResponse → TransportOutcome
  | otherError : String → TransportOutcome

/-- `HttpClient._process_response`: status, rounded elapsed milliseconds,
decoded body (falling back to `{text, content_type}`), headers, url, method. -/
def processResponse (r : RawResponse) (elapsedMs : ℚ) : NormalizedResponse :=
  { status_code := r.status_code
  , response_time := round2 elapsedMs
  , response_data :=
      match r.jsonBody with
      | some j => j
      | none => jobj [("text", jstr r.text),
                      ("content_type", jstr ((dget r.headers "content-type").getD ""))]
  , headers := r.headers
  , url := r.url
  , request_method := r.method }

/-- Message of the exception raised on a timeout. -/
def timeoutMsg (request_timeout : Int) : String :=
  "请求超时: " ++ toString request_timeout ++ "秒"

/-- Message of the exception raised on a connection error. -/
def connectMsg (e : String) : String :=
  "连接错误: " ++ e

/-- Message of the exception raised on any other transport error. -/
def otherMsg (e : String) : String :=
  "请求异常: " ++ e

/-- `HttpClient.request`, keyed by how the exchange ended: responses (any
status) and `HTTPStatusError`s are normalized and returned; timeout,
connection and other errors re-raise typed messages. -/
def httpRequest (request_timeout : Int) (outcome : TransportOutcome) (elapsedMs : ℚ) :
    Except String NormalizedResponse :=
  match outcome with
  | .response r => .ok (processResponse r elapsedMs)
  | .timeout => .error (timeoutMsg request_timeout)
  | .connectError e => .error (connectMsg e)
  | .statusError r => .ok (processResponse r elapsedMs)
  | .otherError e => .error (otherMsg e)

/-! ### Request building (app/models/api_definition.py,
app/models/environment.py, app/services/test_execution_service.py) -/

/-- `str.rstrip('/')`. -/
def rstripSlash (s : String) : String :=
  String.mk (s.data.reverse.dropWhile (fun c => c = '/')).reverse

/-- `str.lstrip('/')`. -/
def lstripSlash (s : String) : String :=
  String.mk (s.data.dropWhile (fun c => c = '/'))

/-- `ApiDefinition.get_full_url`: an URL starting with `http` is kept as is;
otherwise it is joined to the base with exactly one slash. -/
def get_full_url (url : String) (base_url : String) : String :=
  if "http".data.isPrefixOf url.data then url
  else rstripSlash base_url ++ "/" ++ lstripSlash url

/-- The fields of `Environment` the engine reads (`config["base_url"]`,
`config["headers"]`). -/
structure Environment where
  id : Nat
  config_base_url : Option String := none
  config_headers : List (String × JValue) := []
  is_active : Bool := true

/-- `Environment.get_base_url`. -/
def get_base_url (env : Environment) : String :=
  env.config_base_url.getD ""

/-- `Environment.get_headers`. -/
def get_headers (env : Environment) : List (String × JValue) :=
  env.config_headers

/-- The fields of `ApiDefinition` the engine reads. -/
structure ApiDefinition where
  id : Nat
  method : String
  url : String
  headers : List (String × JValue) := []
  query_params : List (String × JValue) := []

/-- Python dict assignment for JSON-valued dicts. -/
def jdput (d : List (String × JValue)) (k : String) (v : JValue) : List (String × JValue) :=
  match d with
  | [] => [(k, v)]
  | (k0, v0) :: t => if k0 = k then (k0, v) :: t else (k0, v0) :: jdput t k v

/-- `d.update(l)` for JSON-valued dicts. -/
def jdictUpdate (d : List (String × JValue)) (l : List (String × JValue)) :
    List (String × JValue) :=
  l.foldl (fun d1 kv => jdput d1 kv.1 kv.2) d

/-- Entries of a JSON dict value (`.get(key, {})` then `.update`). -/
def jobjEntries : JValue → List (String × JValue)
  | jobj l => l
  | _ => []

/-- The concrete request assembled by `execute_single_test_case` (service
lines 58–98): resolve the *request data* through the variable dict, join the
environment base URL with the **raw** API URL — the API URL itself is never
passed through the resolver — and merge headers and query parameters with
environment values first, API statics next, resolved per-request values last. -/
structure BuiltRequest where
  url : String
  method : String
  headers : List (String × JValue)
  params : List (String × JValue)
  body : Option JValue

def buildRequest (ext : Ext) (db : List VarRecord) (executor_id : Option Nat)
    (env : Environment) (api : ApiDefinition) (request_data : JValue)
    (temp_variables : List (String × String)) : BuiltRequest :=
  let resolved :=
    resolveData ext (availableVariables ext db executor_id (some env.id) temp_variables)
      request_data
  let base_url := get_base_url env
  let full_url := get_full_url api.url base_url
  let headers :=
    jdictUpdate (jdictUpdate (jdictUpdate [] (get_headers env)) api.headers)
      (jobjEntries ((jget resolved "headers").getD (jobj [])))
  let params :=
    jdictUpdate (jdictUpdate [] api.query_params)
      (jobjEntries ((jget resolved "query_params").getD (jobj [])))
  { url := full_url, method := api.method, headers := headers, params := params,
    body := jget resolved "body" }

/-! ### Orchestrator (app/tasks/test_execution.py) -/

/-- `TestResultStatus` from app/models/test_execution.py. -/
inductive TestResultStatus where
  | pass | fail | error | skip
deriving DecidableEq, Repr

/-- One row of the `test_results` table, keyed by (execution, test case). -/
structure ResultRow where
  id : Nat
  execution_id : Nat
  test_case_id : Nat
  status : TestResultStatus
  duration : ℚ := 0
  error_message : Option String := none
deriving DecidableEq, Repr

/-- The persistent state the orchestrator touches: the variables table, the
active environment ids, the persisted result rows, and the id sequences. -/
structure OrchSt where
  vars : List VarRecord := []
  activeEnvs : List Nat := []
  rows : List ResultRow := []
  nextRowId : Nat := 1
  nextExecId : Nat := 1
  nextVarId : Nat := 1
deriving Repr

/-- `settings.test_timeout` default (seconds). -/
def test_timeout_default : Int := 300

/-- `settings.max_concurrent_tests` default. -/
def max_concurrent_tests_default : Nat := 10

/-- How one test case's exchange goes: the transport outcome of its single
HTTP call, the elapsed milliseconds, and the case's assertion rules.
Variable resolution and request construction feed only into this outcome, so
the batch-level claims quantify over it. -/
inductive CaseBehavior where
  | exchange : TransportOutcome → ℚ → List AssertionRule → CaseBehavior

/-- Modelled from the spec: `TestExecutionService.execute_test_case`, which
`app/tasks/test_execution.py` awaits (lines 86 and 277) but which no file of
the backend defines — the service only offers `execute_single_test_case` with
a different signature.  Per spec §4.4/§7 the modelled method performs the
case's one exchange, validates its assertions, persists exactly one Result
row for the (execution, test case) pair — status pass/fail from the
assertions, or error for a transport failure — and propagates a transport
failure as a typed exception after recording it, so the per-case caller's
`except` path reports the case failed without affecting siblings. -/
def execute_test_case (ext : Ext) (st : OrchSt) (test_case_id : Nat) (b : CaseBehavior) :
    OrchSt × Except String TestResultStatus :=
  match b with
  | .exchange outcome elapsedMs rules =>
    let execId := st.nextExecId
    match httpRequest test_timeout_default outcome elapsedMs with
    | .ok resp =>
      let summary := validateAllAssertions ext rules resp resp.response_time
      let status := if summary.all_passed then TestResultStatus.pass else TestResultStatus.fail
      ({ st with
          rows := st.rows ++ [{ id := st.nextRowId, execution_id := execId,
                                test_case_id := test_case_id, status := status }],
          nextRowId := st.nextRowId + 1, nextExecId := execId + 1 },
       .ok status)
    | .error msg =>
      ({ st with
          rows := st.rows ++ [{ id := st.nextRowId, execution_id := execId,
                                test_case_id := test_case_id, status := .error,
                                error_message := some msg }],
          nextRowId := st.nextRowId + 1, nextExecId := execId + 1 },
       .error msg)

/-- The per-case status dict built by `execute_single_test_async`. -/
structure CaseDict where
  status : String
  test_case_id : Nat
  error : Option String := none
deriving DecidableEq, Repr

/-- `execute_single_test_async`: run the case, catching every exception into
a `{"status": "failed"}` dict; a normal return reports `"success"` (the test
case record is assumed to exist — its behaviour is the given one). -/
def execute_single_test_async (ext : Ext) (st : OrchSt) (test_case_id : Nat)
    (b : CaseBehavior) : OrchSt × CaseDict :=
  match execute_test_case ext st test_case_id b with
  | (st1, .ok _) => (st1, { status := "success", test_case_id := test_case_id })
  | (st1, .error e) =>
    (st1, { status := "failed", test_case_id := test_case_id, error := some e })

/-- The dict returned by `execute_batch_tests`. -/
structure BatchOutput where
  status : String
  total_count : Nat := 0
  success_count : Nat := 0
  failed_count : Nat := 0
  execution_mode : String := ""
  results : List CaseDict := []
  error : Option String := none

/-- The batch's variable-materialization loop: one `create_variable` call per
override, stopping at the first failure (whose exception reaches the batch's
outer handler with the rows created so far already committed). -/
def createTempVars (st : OrchSt) (now : Int) (session_id : String) (created_by : Nat)
    (overrides : List (String × String)) : Except (OrchSt × String) OrchSt :=
  match overrides with
  | [] => .ok st
  | (n, v) :: t =>
    match create_variable st.vars st.activeEnvs st.nextVarId now n v .temporary created_by
        .vstring none none (some session_id) with
    | .ok db1 =>
      createTempVars { st with vars := db1, nextVarId := st.nextVarId + 1 }
        now session_id created_by t
    | .error e => .error (st, e)

/-- The per-case loop shared by both batch modes: each case runs through
`execute_single_test_async`; `asyncio.gather` keeps results in task order, so
the list below is ordered by case.  The model serializes the row writes; the
parallel interleaving of the exchanges themselves is analysed separately by
`SchedStep`. -/
def runCases (ext : Ext) (st : OrchSt) (cases : List (Nat × CaseBehavior)) :
    OrchSt × List CaseDict :=
  match cases with
  | [] => (st, [])
  | (cid, b) :: t =>
    let p1 := execute_single_test_async ext st cid b
    let p2 := runCases ext p1.1 t
    (p2.1, p1.2 :: p2.2)

/-- `execute_batch_tests`: build the session id, materialize the overrides as
session-scoped temporary variables, run every case (one case's failure only
marks its own dict `"failed"`), count `"success"` against the rest, and — when
overrides were given — call `VariableService.cleanup_temporary_variables()`
with its default 24-hour age.  `tStart` is the submission timestamp used in
the session id and as `created_at` of the overrides; `tFinish` is the clock
when the cleanup runs. -/
def execute_batch_tests (ext : Ext) (st0 : OrchSt) (task_req_id : String)
    (tStart tFinish : Int) (user_id : Option Nat) (cases : List (Nat × CaseBehavior))
    (overrides : List (String × String)) (parallel : Bool) : OrchSt × BatchOutput :=
  let total_count := cases.length
  let session_id := "batch_" ++ task_req_id ++ "_" ++ toString tStart
  match createTempVars st0 tStart session_id (user_id.getD 0) overrides with
  | .error (stE, e) => (stE, { status := "failed", error := some e })
  | .ok st1 =>
    let p := runCases ext st1 cases
    let st2 := p.1
    let results := p.2
    let success_count := (results.filter fun r => r.status = "success").length
    let failed_count := (results.filter fun r => r.status ≠ "success").length
    let st3 :=
      if overrides.isEmpty then st2
      else { st2 with vars := (cleanup_temporary_variables st2.vars tFinish 24).1 }
    (st3, { status := "completed", total_count := total_count,
            success_count := success_count, failed_count := failed_count,
            execution_mode := if parallel then "parallel" else "sequential",
            results := results })

/-- Is some active temporary variable named `n` still visible for session
`sid`? -/
def hasActiveTemp (db : List VarRecord) (sid n : String) : Bool :=
  db.any fun v => decide (v.name = n ∧ v.scope = .temporary ∧
    v.session_id = some sid ∧ v.is_active = true)

/-! ### In-flight exchanges of a parallel batch

The parallel branch of `execute_batch_tests` gathers one
`execute_single_test_async` coroutine per case; each coroutine's HTTP call
constructs `HttpClient()` directly (`test_execution_service.py` line 88) —
`http_client_pool` is never consulted on this path, and
`HttpClientPool.get_client` releases its semaphore permit inside
`async with self.semaphore` before even returning the client.  Hence a
pending exchange's start is never guarded: the step relation below lets any
pending case go in flight regardless of how many already are. -/

inductive ExchPhase where
  | pending | inFlight | done
deriving DecidableEq, Repr

/-- One phase per batch case. -/
structure ParSchedState where
  phases : List ExchPhase
deriving DecidableEq, Repr

/-- All cases dispatched, none started. -/
def initSched (n : Nat) : ParSchedState :=
  ⟨List.replicate n .pending⟩

/-- Interleaving semantics of the gathered coroutines: a pending exchange may
start at any time (no semaphore in the code path), and an in-flight exchange
may finish. -/
inductive SchedStep : ParSchedState → ParSchedState → Prop where
  | start (s : ParSchedState) (i : Nat) (h : s.phases.get? i = some .pending) :
      SchedStep s ⟨s.phases.set i .inFlight⟩
  | finish (s : ParSchedState) (i : Nat) (h : s.phases.get? i = some .inFlight) :
      SchedStep s ⟨s.phases.set i .done⟩

/-- Number of simultaneously in-flight HTTP exchanges. -/
def inFlightCount (s : ParSchedState) : Nat :=
  (s.phases.filter (· = ExchPhase.inFlight)).length

/-- Reachability under the interleaving semantics. -/
def SchedReach (s t : ParSchedState) : Prop :=
  Relation.ReflTransGen SchedStep s t

theorem set_append_at_len {α : Type} (A B : List α) (x : α) :
    (A ++ B).set A.length x = A ++ B.set 0 x := by
  induction A with
  | nil => simp
  | cons a t ih => simp [List.set, ih]

theorem set_append_at_idx {α : Type} (A B : List α) (x : α) (k : Nat) (hk : A.length = k) :
    (A ++ B).set k x = A ++ B.set 0 x := by
  subst hk
  exact set_append_at_len A B x

theorem get_append_at_len {α : Type} (A B : List α) :
    (A ++ B).get? A.length = B.get? 0 := by
  induction A with
  | nil => simp
  | cons a t ih => simpa using ih

/-- From the initial state, all `n` exchanges can be simultaneously in flight
(the scheduler can start every case before any finishes). -/
theorem allInFlight_reachable (n : Nat) :
    SchedReach (initSched n) ⟨List.replicate n .inFlight⟩ := by
  have key : ∀ k : Nat, k ≤ n →
      SchedReach (initSched n)
        ⟨List.replicate k ExchPhase.inFlight ++ List.replicate (n - k) ExchPhase.pending⟩ := by
    intro k
    induction k with
    | zero =>
      intro _
      simp only [List.replicate, Nat.sub_zero, List.nil_append]
      exact Relation.ReflTransGen.refl
    | succ k ih =>
      intro hk
      have hk' : k ≤ n := Nat.le_of_succ_le hk
      have hlt : k < n := hk
      refine Relation.ReflTransGen.tail (ih hk') ?_
      have hget : (List.replicate k ExchPhase.inFlight ++
          List.replicate (n - k) ExchPhase.pending).get? k = some ExchPhase.pending := by
        have hlen : (List.replicate k ExchPhase.inFlight).length = k := List.length_replicate _ _
        have := get_append_at_len (List.replicate k ExchPhase.inFlight)
          (List.replicate (n - k) ExchPhase.pending)
        rw [hlen] at this
        rw [this]
        have hpos : 0 < n - k := Nat.sub_pos_of_lt hlt
        cases hnk : n - k with
        | zero => omega
        | succ m => simp [List.replicate]
      have hstep := SchedStep.start
        ⟨List.replicate k ExchPhase.inFlight ++ List.replicate (n - k) ExchPhase.pending⟩
        k hget
      have hset : (List.replicate k ExchPhase.inFlight ++
            List.replicate (n - k) ExchPhase.pending).set k ExchPhase.inFlight =
          List.replicate (k + 1) ExchPhase.inFlight ++
            List.replicate (n - (k + 1)) ExchPhase.pending := by
        have hlen : (List.replicate k ExchPhase.inFlight).length = k := List.length_replicate _ _
        calc (List.replicate k ExchPhase.inFlight ++
              List.replicate (n - k) ExchPhase.pending).set k ExchPhase.inFlight
            = List.replicate k ExchPhase.inFlight ++
              (List.replicate (n - k) ExchPhase.pending).set 0 ExchPhase.inFlight :=
              set_append_at_idx _ _ _ k hlen
          _ = List.replicate (k + 1) ExchPhase.inFlight ++
              List.replicate (n - (k + 1)) ExchPhase.pending := by
              cases hnk : n - k with
              | zero => omega
              | succ m =>
                have hm : n - (k + 1) = m := by omega
                rw [hm, List.replicate_succ, List.replicate_succ', List.append_assoc]
                simp [List.set]
      rw [hset] at hstep
      exact hstep
  have h := key n (Nat.le_refl n)
  simpa using h

/-! ### List and scan helper lemmas -/

theorem takeWhile_append_all {α : Type} (p : α → Bool) (l r : List α)
    (h : ∀ c ∈ l, p c = true) :
    (l ++ r).takeWhile p = l ++ r.takeWhile p := by
  induction l with
  | nil => simp
  | cons a t ih =>
    have ha : p a = true := h a (List.mem_cons_self a t)
    have ih1 := ih fun c hc => h c (List.mem_cons_of_mem a hc)
    simp [List.takeWhile_cons, ha, ih1]

theorem dropWhile_append_all {α : Type} (p : α → Bool) (l r : List α)
    (h : ∀ c ∈ l, p c = true) :
    (l ++ r).dropWhile p = r.dropWhile p := by
  induction l with
  | nil => simp
  | cons a t ih =>
    have ha : p a = true := h a (List.mem_cons_self a t)
    simp only [List.cons_append, List.dropWhile_cons, ha]
    exact ih fun c hc => h c (List.mem_cons_of_mem a hc)

theorem dropWhile_append_single {α : Type} (p : α → Bool) (l : List α) (c : α)
    (hc : p c = false) :
    (l ++ [c]).dropWhile p = l.dropWhile p ++ [c] := by
  induction l with
  | nil => simp [List.dropWhile, hc]
  | cons a t ih =>
    by_cases ha : p a
    · simp only [List.cons_append, List.dropWhile_cons, ha]
      exact ih
    · simp [List.dropWhile_cons, ha]

/-- Stripping a list whose head is not whitespace keeps that head. -/
theorem pystrip_cons_of_head (c : Char) (cs : List Char) (h : isPyWs c = false) :
    pystrip (c :: cs) = c :: ((cs.reverse.dropWhile isPyWs).reverse) := by
  unfold pystrip
  have h1 : List.dropWhile isPyWs (c :: cs) = c :: cs := by
    rw [List.dropWhile_cons]
    simp [h]
  rw [h1, List.reverse_cons, dropWhile_append_single isPyWs cs.reverse c h,
    List.reverse_append]
  rfl

/-- `resolveCharsFuel` on the empty list is empty for every fuel. -/
theorem resolveCharsFuel_nil (ext : Ext) (varsd : SDict) (fuel : Nat) :
    resolveCharsFuel ext varsd fuel [] = [] := by
  cases fuel <;> rfl

/-- The scan of a string that is exactly one placeholder `{{inner}}` with a
nonempty, brace-free inner text is the single replacement. -/
theorem resolveChars_single (ext : Ext) (varsd : SDict) (x : List Char)
    (hne : x ≠ []) (hbr : '}' ∉ x) :
    resolveChars ext varsd ('{' :: '{' :: (x ++ ['}', '}'])) =
      (replaceVariable ext varsd x).data := by
  have hx : ∀ c ∈ x, (fun c => decide (c ≠ '}')) c = true := by
    intro c hc
    simp only [decide_eq_true_eq]
    intro heq
    exact hbr (heq ▸ hc)
  have htw : (x ++ ['}', '}']).takeWhile (fun c => decide (c ≠ '}')) = x := by
    rw [takeWhile_append_all _ x _ hx]
    simp
  have hdw : (x ++ ['}', '}']).dropWhile (fun c => decide (c ≠ '}')) = ['}', '}'] := by
    rw [dropWhile_append_all _ x _ hx]
    decide
  have hlen : ('{' :: '{' :: (x ++ ['}', '}'])).length = x.length + 3 + 1 := by
    simp [List.length_append]
  have hstep : resolveCharsFuel ext varsd (x.length + 3 + 1) ('{' :: '{' :: (x ++ ['}', '}'])) =
      (if (x ++ ['}', '}']).takeWhile (fun c => decide (c ≠ '}')) ≠ [] ∧
          ((x ++ ['}', '}']).dropWhile (fun c => decide (c ≠ '}'))).take 2 = ['}', '}'] then
        (replaceVariable ext varsd ((x ++ ['}', '}']).takeWhile (fun c => decide (c ≠ '}')))).data
          ++ resolveCharsFuel ext varsd (x.length + 3)
            (((x ++ ['}', '}']).dropWhile (fun c => decide (c ≠ '}'))).drop 2)
      else '{' :: resolveCharsFuel ext varsd (x.length + 3) ('{' :: (x ++ ['}', '}']))) := rfl
  show resolveCharsFuel ext varsd (('{' :: '{' :: (x ++ ['}', '}'])).length)
      ('{' :: '{' :: (x ++ ['}', '}'])) = _
  rw [hlen, hstep, htw, hdw]
  rw [if_pos ⟨hne, rfl⟩]
  rw [show (['}', '}'] : List Char).drop 2 = ([] : List Char) from rfl]
  rw [resolveCharsFuel_nil]
  simp

/-- `replaceVariable` on a stripped, parenthesis-free inner text is the plain
variable substitution with verbatim fallback. -/
theorem replaceVariable_plain (ext : Ext) (varsd : SDict) (x : String)
    (hstrip : pystrip x.data = x.data) (hparen : '(' ∉ x.data) :
    replaceVariable ext varsd x.data =
      (dget varsd x).getD (String.mk ('{' :: '{' :: (x.data ++ ['}', '}']))) := by
  unfold replaceVariable
  rw [hstrip]
  have hx : String.mk x.data = x := rfl
  rw [hx]
  rw [if_neg]
  intro hcontra
  exact hparen hcontra.1

/-! ### Scope precedence of the resolver's variable dict -/

/-- The (name, string value) pairs one scope contributes to the dict. -/
def scopePairs (ext : Ext) (l : List VarRecord) : List (String × String) :=
  l.map fun v => (v.name, pyStr (getTypedValue ext v))

/-- The dict the temporary scope would contribute on its own. -/
def tempScopeDict (tmp : List (String × String)) : SDict :=
  dictOf tmp

/-- The dict the personal scope contributes (empty unless the user id is
truthy). -/
def personalScopeDict (ext : Ext) (db : List VarRecord) (uid : Option Nat) : SDict :=
  if truthyNat uid then
    dictOf (scopePairs ext (db.filter fun v => decide (v.scope = .personal ∧ v.user_id = uid)))
  else []

/-- The dict the environment scope contributes (empty unless the environment
id is truthy). -/
def envScopeDict (ext : Ext) (db : List VarRecord) (eid : Option Nat) : SDict :=
  if truthyNat eid then
    dictOf (scopePairs ext
      (db.filter fun v => decide (v.scope = .environment ∧ v.environment_id = eid)))
  else []

/-- The dict the global scope contributes. -/
def globalScopeDict (ext : Ext) (db : List VarRecord) : SDict :=
  dictOf (scopePairs ext (db.filter fun v => decide (v.scope = .global)))

theorem dget_scopeFold (ext : Ext) (l : List VarRecord) (base : SDict) (y : String) :
    dget (l.foldl (fun d v => dput d v.name (pyStr (getTypedValue ext v))) base) y =
      (dget (dictOf (scopePairs ext l)) y).elim (dget base y) some := by
  have h := dget_foldl_dput (scopePairs ext l) base y
  rw [scopePairs, List.foldl_map] at h
  exact h

theorem option_elim_none_some (o : Option String) : o.elim none some = o := by
  cases o <;> rfl

/-- The resolver's one flat dict looks names up exactly in the scope order
temporary > personal > environment > global: the first scope whose own dict
defines the name decides, existence (`some`) — not the value — being what
stops the search. -/
theorem availableVariables_precedence (ext : Ext) (db : List VarRecord)
    (uid eid : Option Nat) (tmp : List (String × String)) (y : String) :
    dget (availableVariables ext db uid eid tmp) y =
      (dget (tempScopeDict tmp) y).elim
        ((dget (personalScopeDict ext db uid) y).elim
          ((dget (envScopeDict ext db eid) y).elim
            (dget (globalScopeDict ext db) y) some) some) some := by
  have hnone : dget ([] : SDict) y = none := rfl
  have hglobal :
      dget ((db.filter fun v => decide (v.scope = .global)).foldl
        (fun d v => dput d v.name (pyStr (getTypedValue ext v))) []) y =
      dget (globalScopeDict ext db) y := by
    rw [dget_scopeFold, hnone, option_elim_none_some]
    rfl
  have henv :
      dget (if truthyNat eid = true then
          (db.filter fun v =>
            decide (v.scope = .environment ∧ v.environment_id = eid)).foldl
            (fun d v => dput d v.name (pyStr (getTypedValue ext v)))
            ((db.filter fun v => decide (v.scope = .global)).foldl
              (fun d v => dput d v.name (pyStr (getTypedValue ext v))) [])
        else
          (db.filter fun v => decide (v.scope = .global)).foldl
            (fun d v => dput d v.name (pyStr (getTypedValue ext v))) []) y =
      (dget (envScopeDict ext db eid) y).elim (dget (globalScopeDict ext db) y) some := by
    by_cases he : truthyNat eid = true
    · rw [if_pos he, dget_scopeFold, hglobal, envScopeDict, if_pos he]
    · rw [if_neg he, hglobal, envScopeDict, if_neg he, hnone]
      rfl
  have hpers :
      dget (if truthyNat uid = true then
          (db.filter fun v => decide (v.scope = .personal ∧ v.user_id = uid)).foldl
            (fun d v => dput d v.name (pyStr (getTypedValue ext v)))
            (if truthyNat eid = true then
              (db.filter fun v =>
                decide (v.scope = .environment ∧ v.environment_id = eid)).foldl
                (fun d v => dput d v.name (pyStr (getTypedValue ext v)))
                ((db.filter fun v => decide (v.scope = .global)).foldl
                  (fun d v => dput d v.name (pyStr (getTypedValue ext v))) [])
            else
              (db.filter fun v => decide (v.scope = .global)).foldl
                (fun d v => dput d v.name (pyStr (getTypedValue ext v))) [])
        else
          (if truthyNat eid = true then
            (db.filter fun v =>
              decide (v.scope = .environment ∧ v.environment_id = eid)).foldl
              (fun d v => dput d v.name (pyStr (getTypedValue ext v)))
              ((db.filter fun v => decide (v.scope = .global)).foldl
                (fun d v => dput d v.name (pyStr (getTypedValue ext v))) [])
          else
            (db.filter fun v => decide (v.scope = .global)).foldl
              (fun d v => dput d v.name (pyStr (getTypedValue ext v))) [])) y =
      (dget (personalScopeDict ext db uid) y).elim
        ((dget (envScopeDict ext db eid) y).elim
          (dget (globalScopeDict ext db) y) some) some := by
    by_cases hu : truthyNat uid = true
    · rw [if_pos hu, dget_scopeFold, henv, personalScopeDict, if_pos hu]
    · rw [if_neg hu, henv, personalScopeDict, if_neg hu, hnone]
      rfl
  show dget (if tmp ≠ [] then _ else _) y = _
  by_cases ht : tmp ≠ []
  · rw [if_pos ht, dget_foldl_dput, hpers]
    rfl
  · rw [if_neg ht, hpers]
    rw [not_not] at ht
    subst ht
    rfl

/-! ### Support lemmas for the failure taxonomy and numeric coercion -/

theorem timeoutMsg_ne_connectMsg (tmo : Int) (cm : String) :
    timeoutMsg tmo ≠ connectMsg cm := by
  intro h
  have hd := congrArg String.data h
  rw [timeoutMsg, connectMsg, String.data_append, String.data_append,
    String.data_append] at hd
  rw [show "请求超时: ".data = ['请', '求', '超', '时', ':', ' '] from rfl,
    show "连接错误: ".data = ['连', '接', '错', '误', ':', ' '] from rfl] at hd
  simp only [List.cons_append, List.nil_append, List.append_assoc, List.cons.injEq] at hd
  exact absurd hd.1 (by decide)

theorem timeoutMsg_ne_otherMsg (tmo : Int) (om : String) :
    timeoutMsg tmo ≠ otherMsg om := by
  intro h
  have hd := congrArg String.data h
  rw [timeoutMsg, otherMsg, String.data_append, String.data_append,
    String.data_append] at hd
  rw [show "请求超时: ".data = ['请', '求', '超', '时', ':', ' '] from rfl,
    show "请求异常: ".data = ['请', '求', '异', '常', ':', ' '] from rfl] at hd
  simp only [List.cons_append, List.nil_append, List.append_assoc, List.cons.injEq] at hd
  exact absurd hd.2.2.1 (by decide)

theorem connectMsg_ne_otherMsg (cm om : String) :
    connectMsg cm ≠ otherMsg om := by
  intro h
  have hd := congrArg String.data h
  rw [connectMsg, otherMsg, String.data_append, String.data_append] at hd
  rw [show "连接错误: ".data = ['连', '接', '错', '误', ':', ' '] from rfl,
    show "请求异常: ".data = ['请', '求', '异', '常', ':', ' '] from rfl] at hd
  simp only [List.cons_append, List.nil_append, List.cons.injEq] at hd
  exact absurd hd.1 (by decide)

/-- A head character that is no sign, digit, dot or whitespace makes Python
`float` fail. -/
theorem parsePyFloat_bad_head (c : Char) (cs : List Char)
    (hws : isPyWs c = false) (hdig : c.isDigit = false)
    (hplus : c ≠ '+') (hminus : c ≠ '-') (hdot : c ≠ '.') :
    parsePyFloat (c :: cs) = none := by
  unfold parsePyFloat
  rw [pystrip_cons_of_head c cs hws]
  dsimp only
  rw [splitSign_cons c _ hplus hminus]
  dsimp only
  rw [List.takeWhile_cons, List.dropWhile_cons]
  simp only [hdig, Bool.false_eq_true, reduceIte]
  split
  next r2 heq =>
    exact absurd (List.cons.inj heq).1 hdot
  next =>
    rfl

/-- When `float(value)` fails, so does `float(str(value))` — the string-form
fallback of `_safe_compare` cannot rescue a numeric comparison. -/
theorem pyFloat_pyStr_none (a : JValue) (h : pyFloat a = none) :
    pyFloat (jstr (pyStr a)) = none := by
  cases a with
  | jnull => decide
  | jbool b => simp [pyFloat] at h
  | jint n => simp [pyFloat] at h
  | jfloat q => simp [pyFloat] at h
  | jstr s => simpa [pyFloat, pyStr] using h
  | jarr l =>
    show parsePyFloat ("[" ++ pyReprList l ++ "]").data = none
    rw [String.data_append, String.data_append,
      show "[".data = ['['] from rfl, show "]".data = [']'] from rfl]
    rw [show (['['] ++ (pyReprList l).data) ++ [']'] =
      '[' :: ((pyReprList l).data ++ [']']) from rfl]
    exact parsePyFloat_bad_head '[' _ (by decide) (by decide) (by decide) (by decide)
      (by decide)
  | jobj l =>
    show parsePyFloat ("\x7b" ++ pyReprPairs l ++ "\x7d").data = none
    rw [String.data_append, String.data_append,
      show "\x7b".data = ['{'] from rfl, show "\x7d".data = ['}'] from rfl]
    rw [show (['{'] ++ (pyReprPairs l).data) ++ ['}'] =
      '{' :: ((pyReprPairs l).data ++ ['}']) from rfl]
    exact parsePyFloat_bad_head '{' _ (by decide) (by decide) (by decide) (by decide)
      (by decide)

theorem safeCompareNum_coercion_failure (actual expected : JValue)
    (hfail : pyFloat actual = none ∨ pyFloat expected = none)
    (cmp : ℚ → ℚ → Bool) :
    safeCompareNum actual expected cmp = false := by
  have h1 : floatStage actual expected cmp = none := by
    unfold floatStage
    rcases hfail with h | h
    · rw [h]
    · rw [h]
      cases pyFloat actual <;> rfl
  have h2 : floatStage (jstr (pyStr actual)) (jstr (pyStr expected)) cmp = none := by
    unfold floatStage
    rcases hfail with h | h
    · rw [pyFloat_pyStr_none actual h]
    · rw [pyFloat_pyStr_none expected h]
      cases pyFloat (jstr (pyStr actual)) <;> rfl
  unfold safeCompareNum
  rw [h1, h2]

/-! ### The claims -/

/-- Claim C5 (code bug): `validate_all_assertions([])` indeed returns an
aggregate with `total = 0` and `all_passed = true`, but its early return omits
the `pass_rate` key entirely (`none` here) instead of the claimed `0`; the
nonempty branch's own `else 0` ternary and the caller
`execute_single_test_case`, which reads `["pass_rate"]` unconditionally, show
`0` was the intent. -/
theorem validate_all_assertions_empty (ext : Ext) (resp : NormalizedResponse) (t : ℚ) :
    (validateAllAssertions ext [] resp t).total = 0 ∧
    (validateAllAssertions ext [] resp t).all_passed = true ∧
    (validateAllAssertions ext [] resp t).pass_rate = none :=
  ⟨rfl, rfl, rfl⟩

/-- Claim C7: the transport's `except` branches classify a timeout, a
connection failure and any other transport exception into failures whose
messages are pairwise distinct, while a response carrying an HTTP error
status is not a failure: it comes back as the normally normalized response
(status code, rounded elapsed time, headers, decoded body), against which a
`status_code` assertion can then fail (404 against expected 200 below). -/
theorem transport_failure_taxonomy (ext : Ext) (tmo : Int) (r : RawResponse) (ms : ℚ)
    (cm om : String) :
    httpRequest tmo .timeout ms = .error (timeoutMsg tmo) ∧
    httpRequest tmo (.connectError cm) ms = .error (connectMsg cm) ∧
    httpRequest tmo (.otherError om) ms = .error (otherMsg om) ∧
    timeoutMsg tmo ≠ connectMsg cm ∧
    timeoutMsg tmo ≠ otherMsg om ∧
    connectMsg cm ≠ otherMsg om ∧
    httpRequest tmo (.response r) ms = .ok (processResponse r ms) ∧
    (processResponse r ms).status_code = r.status_code ∧
    (processResponse r ms).headers = r.headers ∧
    (processResponse r ms).response_time = round2 ms ∧
    (validateAssertion ext { atype := "status_code", operator := "eq", expected := jint 200 }
      (processResponse { r with status_code := 404 } ms)
      (processResponse { r with status_code := 404 } ms).response_time).passed = false :=
  ⟨rfl, rfl, rfl, timeoutMsg_ne_connectMsg tmo cm, timeoutMsg_ne_otherMsg tmo om,
   connectMsg_ne_otherMsg cm om, rfl, rfl, rfl, rfl, rfl⟩

/-- Claim C8: for `gt`/`lt`/`gte`/`lte` both operands go through `float(...)`;
when either side fails to coerce the assertion comparison returns `False`
(a failed assertion, not an exception), and rule evaluation never aborts the
batch of rules: `validate_all_assertions` returns one outcome per rule no
matter what the rules are. -/
theorem numeric_operator_coercion_failure (ext : Ext) (op : String)
    (hop : op = "gt" ∨ op = "lt" ∨ op = "gte" ∨ op = "lte")
    (actual expected : JValue)
    (hfail : pyFloat actual = none ∨ pyFloat expected = none) :
    compareValues ext actual expected op = false ∧
    (∀ (rules : List AssertionRule) (resp : NormalizedResponse) (t : ℚ),
      (validateAllAssertions ext rules resp t).results.length = rules.length) := by
  constructor
  · rcases hop with rfl | rfl | rfl | rfl
    · show safeCompareNum actual expected (fun x y => decide (x > y)) = false
      exact safeCompareNum_coercion_failure actual expected hfail _
    · show safeCompareNum actual expected (fun x y => decide (x < y)) = false
      exact safeCompareNum_coercion_failure actual expected hfail _
    · show safeCompareNum actual expected (fun x y => decide (x ≥ y)) = false
      exact safeCompareNum_coercion_failure actual expected hfail _
    · show safeCompareNum actual expected (fun x y => decide (x ≤ y)) = false
      exact safeCompareNum_coercion_failure actual expected hfail _
  · intro rules resp t
    cases rules with
    | nil => rfl
    | cons a t1 =>
      show ((a :: t1).map fun r => validateAssertion ext r resp t).length = _
      rw [List.length_map]

/-- Witness for C8 at a concrete input: comparing `null` against `1` under
`gt` (coercion of `None` fails) yields a failed — not erroring — assertion. -/
theorem numeric_operator_coercion_failure_witness :
    compareValues ext0 jnull (jint 1) "gt" = false ∧
    (validateAllAssertions ext0
      [{ atype := "response_time", operator := "gt", expected := jnull }]
      { status_code := 200, response_time := 5, response_data := jobj [], headers := [],
        url := "", request_method := "GET" } 5).results.length = 1 :=
  ⟨(numeric_operator_coercion_failure ext0 "gt" (Or.inl rfl) jnull (jint 1)
      (Or.inl rfl)).1,
   (numeric_operator_coercion_failure ext0 "gt" (Or.inl rfl) jnull (jint 1)
      (Or.inl rfl)).2 _ _ _⟩

/-- Claim C4 counterexample: a placeholder whose inner text parses as a call
to an unrecognized function does **not** stay verbatim: `{\x7bfoo(1)\x7d}`
resolves to the marker `{\x7bunknown_function:foo\x7d}`. -/
theorem unknown_function_marker_not_verbatim :
    resolveString ext0 (dictOf []) "\x7b\x7bfoo(1)\x7d\x7d" =
      "\x7b\x7bunknown_function:foo\x7d\x7d" ∧
    resolveString ext0 (dictOf []) "\x7b\x7bfoo(1)\x7d\x7d" ≠ "\x7b\x7bfoo(1)\x7d\x7d" :=
  ⟨by decide, by decide⟩

/-! ### Support lemmas for single-placeholder resolution -/

theorem string_data_ne_nil (x : String) (h : x ≠ "") : x.data ≠ [] := by
  intro h0
  apply h
  cases x with
  | mk d =>
    exact congrArg String.mk h0

theorem placeholder_data (x : String) :
    ("\x7b\x7b" ++ x ++ "\x7d\x7d").data = '{' :: '{' :: (x.data ++ ['}', '}']) := by
  rw [String.data_append, String.data_append]
  rfl

/-- Claim C3: for an unscoped placeholder the resolver follows the scope
precedence temporary > personal > environment > global — the flat dict's
lookup equals the first-scope-that-defines-it search (existence deciding) —
and in particular a temporary-scope binding of `x` makes `{\x7bx\x7d}`
resolve to it regardless of every global, environment and personal row. -/
theorem unscoped_scope_precedence (ext : Ext) (db : List VarRecord)
    (uid eid : Option Nat) (tmp : List (String × String)) (x v : String)
    (htmp : dget (dictOf tmp) x = some v)
    (hstrip : pystrip x.data = x.data)
    (hparen : '(' ∉ x.data)
    (hbr : '}' ∉ x.data)
    (hne : x ≠ "") :
    (∀ y : String,
        dget (availableVariables ext db uid eid tmp) y =
          (dget (tempScopeDict tmp) y).elim
            ((dget (personalScopeDict ext db uid) y).elim
              ((dget (envScopeDict ext db eid) y).elim
                (dget (globalScopeDict ext db) y) some) some) some) ∧
    dget (availableVariables ext db uid eid tmp) x = some v ∧
    resolveString ext (availableVariables ext db uid eid tmp)
      ("\x7b\x7b" ++ x ++ "\x7d\x7d") = v := by
  have hlk : dget (availableVariables ext db uid eid tmp) x = some v := by
    rw [availableVariables_precedence]
    rw [show tempScopeDict tmp = dictOf tmp from rfl, htmp]
    rfl
  refine ⟨availableVariables_precedence ext db uid eid tmp, hlk, ?_⟩
  unfold resolveString
  rw [placeholder_data]
  rw [resolveChars_single ext _ x.data (string_data_ne_nil x hne) hbr]
  rw [replaceVariable_plain ext _ x hstrip hparen]
  rw [hlk]
  rfl

/-- Witness for C3: with a global row binding `x` to `vg`, a temporary dict
binding `x` to `vt` wins. -/
theorem unscoped_scope_precedence_witness :
    dget (dictOf [("x", "vt")]) "x" = some "vt" ∧
    resolveString ext0
      (availableVariables ext0 [{ id := 1, name := "x", value := "vg", scope := .global }]
        none none [("x", "vt")])
      ("\x7b\x7b" ++ "x" ++ "\x7d\x7d") = "vt" :=
  ⟨by decide,
   (unscoped_scope_precedence ext0 [{ id := 1, name := "x", value := "vg", scope := .global }]
      none none [("x", "vt")] "x" "vt" (by decide) (by decide) (by decide) (by decide)
      (by decide)).2.2⟩

/-! ### Support lemmas for function-call placeholders -/

theorem isWordChar_not_ws (c : Char) (h : isWordChar c = true) : isPyWs c = false := by
  cases hb : isPyWs c with
  | false => rfl
  | true =>
    have hb2 := hb
    simp only [isPyWs, Bool.or_eq_true, decide_eq_true_eq] at hb2
    rcases hb2 with ((((rfl | rfl) | rfl) | rfl) | rfl) | rfl <;>
      exact absurd h (by decide)

/-- A list whose head and last character are not whitespace strips to itself. -/
theorem pystrip_id (l : List Char)
    (hh : ∀ c, l.head? = some c → isPyWs c = false)
    (hl : ∀ c, l.getLast? = some c → isPyWs c = false) :
    pystrip l = l := by
  cases l with
  | nil => rfl
  | cons c cs =>
    have h1 : List.dropWhile isPyWs (c :: cs) = c :: cs := by
      rw [List.dropWhile_cons]
      simp [hh c rfl]
    unfold pystrip
    rw [h1]
    cases hrev : (c :: cs).reverse with
    | nil => exact absurd hrev (by simp)
    | cons d t =>
      have hd : isPyWs d = false := by
        apply hl
        rw [← List.head?_reverse, hrev]
        rfl
      rw [List.dropWhile_cons]
      simp only [hd, Bool.false_eq_true, reduceIte]
      rw [← hrev, List.reverse_reverse]

/-- The call regex applied to `name(args)` (word-character name, no newline in
the arguments) parses the name and the full argument text. -/
theorem parseFuncCall_call (f a : List Char)
    (hw : ∀ c ∈ f, isWordChar c = true) (hne : f ≠ []) (hnl : '\n' ∉ a) :
    parseFuncCall (f ++ '(' :: (a ++ [')'])) = some (String.mk f, String.mk a) := by
  have htw : (f ++ '(' :: (a ++ [')'])).takeWhile isWordChar = f := by
    rw [takeWhile_append_all isWordChar f _ hw, List.takeWhile_cons]
    simp [show isWordChar '(' = false from by decide]
  have hdw : (f ++ '(' :: (a ++ [')'])).dropWhile isWordChar = '(' :: (a ++ [')']) := by
    rw [dropWhile_append_all isWordChar f _ hw, List.dropWhile_cons]
    simp [show isWordChar '(' = false from by decide]
  have hseg : (a ++ [')']).takeWhile (fun c => decide (c ≠ '\n')) = a ++ [')'] := by
    have ha : ∀ c ∈ a, (fun c => decide (c ≠ '\n')) c = true := by
      intro c hc
      simp only [decide_eq_true_eq]
      intro he
      exact hnl (he ▸ hc)
    rw [takeWhile_append_all _ a _ ha]
    rfl
  cases f with
  | nil => exact absurd rfl hne
  | cons c0 cd =>
    unfold parseFuncCall
    rw [htw, hdw]
    show (match List.dropWhile (fun c => decide (c ≠ ')'))
        ((List.takeWhile (fun c => decide (c ≠ '\n')) (a ++ [')'])).reverse) with
      | ')' :: argsR => some (String.mk (c0 :: cd), String.mk argsR.reverse)
      | _ => none) = some (String.mk (c0 :: cd), String.mk a)
    rw [hseg]
    rw [show ((a ++ [')']).reverse) = ')' :: a.reverse from by
      rw [List.reverse_append]; rfl]
    rw [List.dropWhile_cons]
    simp only [show (fun c => decide (c ≠ ')')) ')' = false from by decide,
      Bool.false_eq_true, reduceIte, List.reverse_reverse]

theorem callBuiltinFunction_unknown (ext : Ext) (f : String) (args : List PyArg)
    (h1 : f ≠ "randomString") (h2 : f ≠ "randomInt") (h3 : f ≠ "timestamp")
    (h4 : f ≠ "datetime") (h5 : f ≠ "uuid") (h6 : f ≠ "randomEmail")
    (h7 : f ≠ "randomPhone") (h8 : f ≠ "base64") :
    callBuiltinFunction ext f args = "\x7b\x7bunknown_function:" ++ f ++ "\x7d\x7d" := by
  unfold callBuiltinFunction
  rw [if_neg h1, if_neg h2, if_neg h3, if_neg h4, if_neg h5, if_neg h6, if_neg h7,
    if_neg h8]

theorem call_text_data (f a : String) :
    (f ++ "(" ++ a ++ ")").data = f.data ++ '(' :: (a.data ++ [')']) := by
  rw [String.data_append, String.data_append, String.data_append]
  rw [show "(".data = ['('] from rfl, show ")".data = [')'] from rfl]
  simp [List.append_assoc]

theorem executeFunction_unknown (ext : Ext) (f a : String)
    (hw : ∀ c ∈ f.data, isWordChar c = true) (hne : f ≠ "") (hnl : '\n' ∉ a.data)
    (h1 : f ≠ "randomString") (h2 : f ≠ "randomInt") (h3 : f ≠ "timestamp")
    (h4 : f ≠ "datetime") (h5 : f ≠ "uuid") (h6 : f ≠ "randomEmail")
    (h7 : f ≠ "randomPhone") (h8 : f ≠ "base64") :
    executeFunction ext (f ++ "(" ++ a ++ ")") =
      "\x7b\x7bunknown_function:" ++ f ++ "\x7d\x7d" := by
  unfold executeFunction
  rw [call_text_data,
    parseFuncCall_call f.data a.data hw (string_data_ne_nil f hne) hnl]
  dsimp only
  rw [show String.mk f.data = f from rfl]
  exact callBuiltinFunction_unknown ext f _ h1 h2 h3 h4 h5 h6 h7 h8

/-- Claim C4 (amended): a placeholder matching no variable passes through
verbatim, and resolution never fails; but an *unrecognized function call*
`{\x7bf(args)\x7d}` does not stay verbatim — it becomes the marker
`{\x7bunknown_function:f\x7d}` (see the counterexample). -/
theorem unresolved_placeholder_pass_through (ext : Ext) (varsd : SDict) :
    (∀ x : String, dget varsd x = none → pystrip x.data = x.data → '(' ∉ x.data →
        '}' ∉ x.data → x ≠ "" →
        resolveString ext varsd ("\x7b\x7b" ++ x ++ "\x7d\x7d") =
          "\x7b\x7b" ++ x ++ "\x7d\x7d") ∧
    (∀ f a : String, (∀ c ∈ f.data, isWordChar c = true) → f ≠ "" →
        '\n' ∉ a.data → '}' ∉ f.data → '}' ∉ a.data →
        f ≠ "randomString" → f ≠ "randomInt" → f ≠ "timestamp" → f ≠ "datetime" →
        f ≠ "uuid" → f ≠ "randomEmail" → f ≠ "randomPhone" → f ≠ "base64" →
        resolveString ext varsd ("\x7b\x7b" ++ (f ++ "(" ++ a ++ ")") ++ "\x7d\x7d") =
          "\x7b\x7bunknown_function:" ++ f ++ "\x7d\x7d") := by
  constructor
  · intro x hnone hstrip hparen hbr hne
    unfold resolveString
    rw [placeholder_data]
    rw [resolveChars_single ext _ x.data (string_data_ne_nil x hne) hbr]
    rw [replaceVariable_plain ext _ x hstrip hparen]
    rw [hnone]
    rw [show (none : Option String).getD
      (String.mk ('{' :: '{' :: (x.data ++ ['}', '}']))) =
      String.mk ('{' :: '{' :: (x.data ++ ['}', '}'])) from rfl]
    rw [← placeholder_data]
  · intro f a hw hfne hnl hbrf hbra h1 h2 h3 h4 h5 h6 h7 h8
    have hinner : (f ++ "(" ++ a ++ ")").data = f.data ++ '(' :: (a.data ++ [')']) :=
      call_text_data f a
    have hbr : '}' ∉ (f ++ "(" ++ a ++ ")").data := by
      rw [hinner]
      intro hmem
      rcases List.mem_append.mp hmem with hf | hrest
      · exact hbrf hf
      · rcases List.mem_cons.mp hrest with he | hrest2
        · exact absurd he (by decide)
        · rcases List.mem_append.mp hrest2 with ha | hlast
          · exact hbra ha
          · rcases List.mem_cons.mp hlast with he | habs
            · exact absurd he (by decide)
            · exact absurd habs (by simp)
    have hinne : (f ++ "(" ++ a ++ ")").data ≠ [] := by
      rw [hinner]
      cases hfd : f.data with
      | nil => exact absurd hfd (string_data_ne_nil f hfne)
      | cons c0 cd => simp
    have hstripinner : pystrip (f ++ "(" ++ a ++ ")").data = (f ++ "(" ++ a ++ ")").data := by
      apply pystrip_id
      · intro c hc
        rw [hinner] at hc
        cases hfd : f.data with
        | nil => exact absurd hfd (string_data_ne_nil f hfne)
        | cons c0 cd =>
          rw [hfd] at hc
          rw [show ((c0 :: cd) ++ '(' :: (a.data ++ [')'])).head? = some c0 from rfl] at hc
          have hc0 : c0 = c := Option.some.inj hc
          rw [← hc0]
          apply isWordChar_not_ws
          apply hw
          rw [hfd]
          exact List.mem_cons_self c0 cd
      · intro c hc
        rw [hinner] at hc
        have hlast : (f.data ++ '(' :: (a.data ++ [')'])).getLast? = some ')' := by
          rw [show (f.data ++ '(' :: (a.data ++ [')'])) =
            (f.data ++ '(' :: a.data) ++ ')' :: [] from by simp]
          rw [List.getLast?_append_cons]
          rfl
        rw [hlast] at hc
        have hc0 : (')' : Char) = c := Option.some.inj hc
        rw [← hc0]
        decide
    unfold resolveString
    rw [placeholder_data]
    rw [resolveChars_single ext _ _ hinne hbr]
    unfold replaceVariable
    rw [hstripinner]
    rw [show String.mk (f ++ "(" ++ a ++ ")").data = f ++ "(" ++ a ++ ")" from rfl]
    rw [if_pos ?hcond]
    case hcond =>
      constructor
      · rw [hinner]
        exact List.mem_append.mpr (Or.inr (List.mem_cons_self _ _))
      · rw [hinner]
        refine List.mem_append.mpr (Or.inr (List.mem_cons.mpr (Or.inr ?_)))
        exact List.mem_append.mpr (Or.inr (List.mem_cons_self _ _))
    rw [executeFunction_unknown ext f a hw hfne hnl h1 h2 h3 h4 h5 h6 h7 h8]

/-- Witness for C4 (amended): `{\x7bname\x7d}` with no binding stays verbatim,
and `{\x7bfoo(1)\x7d}` with `foo` outside the registry becomes the unknown
marker. -/
theorem unresolved_placeholder_pass_through_witness :
    resolveString ext0 (dictOf []) ("\x7b\x7b" ++ "name" ++ "\x7d\x7d") =
      "\x7b\x7b" ++ "name" ++ "\x7d\x7d" ∧
    resolveString ext0 (dictOf [])
      ("\x7b\x7b" ++ ("foo" ++ "(" ++ "1" ++ ")") ++ "\x7d\x7d") =
      "\x7b\x7bunknown_function:" ++ "foo" ++ "\x7d\x7d" :=
  ⟨(unresolved_placeholder_pass_through ext0 (dictOf [])).1 "name" (by decide) (by decide)
      (by decide) (by decide) (by decide),
   (unresolved_placeholder_pass_through ext0 (dictOf [])).2 "foo" "1" (by decide)
      (by decide) (by decide) (by decide) (by decide) (by decide) (by decide) (by decide)
      (by decide) (by decide) (by decide) (by decide) (by decide)⟩

/-! ### Support lemmas: soft deletion is invisible to the resolver -/

theorem deactivateRow_name (vid : Nat) (v : VarRecord) :
    (deactivateRow vid v).name = v.name := by
  unfold deactivateRow
  split <;> rfl

theorem deactivateRow_scope (vid : Nat) (v : VarRecord) :
    (deactivateRow vid v).scope = v.scope := by
  unfold deactivateRow
  split <;> rfl

theorem deactivateRow_environment_id (vid : Nat) (v : VarRecord) :
    (deactivateRow vid v).environment_id = v.environment_id := by
  unfold deactivateRow
  split <;> rfl

theorem deactivateRow_user_id (vid : Nat) (v : VarRecord) :
    (deactivateRow vid v).user_id = v.user_id := by
  unfold deactivateRow
  split <;> rfl

theorem getTypedValue_deactivateRow (ext : Ext) (vid : Nat) (v : VarRecord) :
    getTypedValue ext (deactivateRow vid v) = getTypedValue ext v := by
  unfold deactivateRow
  split <;> rfl

theorem filter_map_deactivateRow (vid : Nat) (p : VarRecord → Bool)
    (hp : ∀ v, p (deactivateRow vid v) = p v) (l : List VarRecord) :
    (l.map (deactivateRow vid)).filter p = (l.filter p).map (deactivateRow vid) := by
  induction l with
  | nil => rfl
  | cons v t ih =>
    by_cases hv : p v = true
    · simp only [List.map_cons, List.filter_cons, hp v, hv, reduceIte]
      rw [ih]
    · have hv2 : p v = false := by
        cases hpv : p v
        · rfl
        · exact absurd hpv hv
      simp only [List.map_cons, List.filter_cons, hp v, hv2, Bool.false_eq_true, reduceIte]
      exact ih

theorem fold_map_deactivateRow (ext : Ext) (vid : Nat) (l : List VarRecord) (base : SDict) :
    (l.map (deactivateRow vid)).foldl
        (fun d v => dput d v.name (pyStr (getTypedValue ext v))) base =
      l.foldl (fun d v => dput d v.name (pyStr (getTypedValue ext v))) base := by
  induction l generalizing base with
  | nil => rfl
  | cons v t ih =>
    simp only [List.map_cons, List.foldl_cons]
    rw [deactivateRow_name, getTypedValue_deactivateRow]
    exact ih _

/-- Soft-deleting any row leaves the resolver's variable dict untouched: none
of the resolver's filters or value reads consult `is_active`. -/
theorem availableVariables_deactivateRow (ext : Ext) (db : List VarRecord) (vid : Nat)
    (uid eid : Option Nat) (tmp : List (String × String)) :
    availableVariables ext (db.map (deactivateRow vid)) uid eid tmp =
      availableVariables ext db uid eid tmp := by
  unfold availableVariables
  dsimp only
  rw [filter_map_deactivateRow vid _ (fun v => by rw [deactivateRow_scope]) db,
    fold_map_deactivateRow]
  rw [filter_map_deactivateRow vid _
    (fun v => by rw [deactivateRow_scope, deactivateRow_environment_id]) db,
    fold_map_deactivateRow]
  rw [filter_map_deactivateRow vid _
    (fun v => by rw [deactivateRow_scope, deactivateRow_user_id]) db,
    fold_map_deactivateRow]

/-- Claim C10: the resolver ignores the `is_active` flag — after
`delete_variable` soft-deletes any row, the available-variable dict, and with
it every placeholder resolution, is unchanged, so a soft-deleted variable
still substitutes for its placeholder. -/
theorem resolver_ignores_active_flag (ext : Ext) (db db' : List VarRecord) (vid : Nat)
    (uid eid : Option Nat) (tmp : List (String × String)) (data : JValue)
    (hdel : delete_variable db vid = some db') :
    availableVariables ext db' uid eid tmp = availableVariables ext db uid eid tmp ∧
    resolveData ext (availableVariables ext db' uid eid tmp) data =
      resolveData ext (availableVariables ext db uid eid tmp) data := by
  have hdb : db' = db.map (deactivateRow vid) := by
    unfold delete_variable at hdel
    split at hdel
    · exact (Option.some.inj hdel).symm
    · exact absurd hdel (by simp)
  subst hdb
  have h := availableVariables_deactivateRow ext db vid uid eid tmp
  exact ⟨h, by rw [h]⟩

/-- Witness for C10: deleting the single global variable `x` still leaves
`{\x7bx\x7d}` resolving to its value `vx`. -/
theorem resolver_ignores_active_flag_witness :
    delete_variable [{ id := 1, name := "x", value := "vx", scope := .global }] 1 =
      some [{ id := 1, name := "x", value := "vx", scope := .global, is_active := false }] ∧
    resolveData ext0
      (availableVariables ext0
        [{ id := 1, name := "x", value := "vx", scope := .global, is_active := false }]
        none none [])
      (jstr "\x7b\x7bx\x7d\x7d") =
      resolveData ext0
        (availableVariables ext0 [{ id := 1, name := "x", value := "vx", scope := .global }]
          none none [])
        (jstr "\x7b\x7bx\x7d\x7d") ∧
    resolveData ext0
      (availableVariables ext0 [{ id := 1, name := "x", value := "vx", scope := .global }]
        none none [])
      (jstr "\x7b\x7bx\x7d\x7d") = jstr "vx" :=
  ⟨by decide,
   (resolver_ignores_active_flag ext0
      [{ id := 1, name := "x", value := "vx", scope := .global }]
      [{ id := 1, name := "x", value := "vx", scope := .global, is_active := false }]
      1 none none [] (jstr "\x7b\x7bx\x7d\x7d") (by decide)).2,
   by rfl⟩

/-! ### Support lemmas for URL building -/

theorem rstripSlash_eq (b : String) (hb : b.data.getLast? ≠ some '/') :
    rstripSlash b = b := by
  unfold rstripSlash
  cases hrev : b.data.reverse with
  | nil =>
    have hnil : b.data = [] := by
      have h2 := congrArg List.reverse hrev
      rwa [List.reverse_reverse] at h2
    exact (congrArg String.mk hnil).symm
  | cons d t =>
    have hd : d ≠ '/' := by
      intro hcontra
      apply hb
      rw [← List.head?_reverse, hrev, hcontra]
      rfl
    rw [List.dropWhile_cons]
    simp only [show (fun c => decide (c = '/')) d = false from by
      simp [hd], Bool.false_eq_true, reduceIte]
    rw [← hrev, List.reverse_reverse]

/-- Claim C6 counterexample: with the active environment defining
`base_path=/v2` (an environment-scoped row) and the API URL being the
template `{\x7benv.base_path\x7d}/users`, the URL actually used joins the
**raw** template onto the base URL — the placeholder survives verbatim, and
the result is not `base_url ++ "/v2/users"`. -/
theorem api_url_template_not_resolved :
    (buildRequest ext0
      [{ id := 5, name := "base_path", value := "/v2", scope := .environment,
         environment_id := some 1 }]
      none
      { id := 1, config_base_url := some "http://api.example.com" }
      { id := 9, method := "GET", url := "\x7b\x7benv.base_path\x7d\x7d/users" }
      (jobj []) []).url = "http://api.example.com/\x7b\x7benv.base_path\x7d\x7d/users" ∧
    (buildRequest ext0
      [{ id := 5, name := "base_path", value := "/v2", scope := .environment,
         environment_id := some 1 }]
      none
      { id := 1, config_base_url := some "http://api.example.com" }
      { id := 9, method := "GET", url := "\x7b\x7benv.base_path\x7d\x7d/users" }
      (jobj []) []).url ≠ "http://api.example.com/v2/users" :=
  ⟨by decide, by decide⟩

/-- Claim C6 (amended): the execution path never passes the API URL through
the variable resolver; for every environment whose base URL has no trailing
slash, the request URL is the base URL joined with the raw template — the
environment placeholder stays verbatim in the URL used. -/
theorem api_url_join_keeps_placeholder (ext : Ext) (db : List VarRecord)
    (executor_id : Option Nat) (tmp : List (String × String)) (rd : JValue)
    (eid aid : Nat) (m : String) (envhdrs hdrs qps : List (String × JValue)) (b : String)
    (hb : b.data.getLast? ≠ some '/') :
    (buildRequest ext db executor_id
      { id := eid, config_base_url := some b, config_headers := envhdrs }
      { id := aid, method := m, url := "\x7b\x7benv.base_path\x7d\x7d/users",
        headers := hdrs, query_params := qps }
      rd tmp).url = b ++ "/\x7b\x7benv.base_path\x7d\x7d/users" := by
  show rstripSlash b ++ "/" ++ lstripSlash "\x7b\x7benv.base_path\x7d\x7d/users" =
    b ++ "/\x7b\x7benv.base_path\x7d\x7d/users"
  rw [rstripSlash_eq b hb]
  rw [show lstripSlash "\x7b\x7benv.base_path\x7d\x7d/users" =
    "\x7b\x7benv.base_path\x7d\x7d/users" from by decide]
  rw [String.append_assoc]
  rfl

/-- Witness for C6 (amended) at a concrete base URL. -/
theorem api_url_join_keeps_placeholder_witness :
    (buildRequest ext0 [] none
      { id := 1, config_base_url := some "http://h", config_headers := [] }
      { id := 2, method := "GET", url := "\x7b\x7benv.base_path\x7d\x7d/users",
        headers := [], query_params := [] }
      (jobj []) []).url = "http://h" ++ "/\x7b\x7benv.base_path\x7d\x7d/users" :=
  api_url_join_keeps_placeholder ext0 [] none [] (jobj []) 1 2 "GET" [] [] []
    "http://h" (by decide)

/-! ### Support lemmas for the batch orchestrator -/

theorem execute_test_case_vars (ext : Ext) (st : OrchSt) (cid : Nat) (b : CaseBehavior) :
    (execute_test_case ext st cid b).1.vars = st.vars := by
  cases b with
  | exchange outcome ms rules =>
    unfold execute_test_case
    dsimp only
    cases httpRequest test_timeout_default outcome ms <;> rfl

theorem execute_single_test_async_vars (ext : Ext) (st : OrchSt) (cid : Nat)
    (b : CaseBehavior) :
    (execute_single_test_async ext st cid b).1.vars = st.vars := by
  have h2 : (execute_single_test_async ext st cid b).1 = (execute_test_case ext st cid b).1 := by
    unfold execute_single_test_async
    rcases execute_test_case ext st cid b with ⟨st1, res⟩
    cases res <;> rfl
  rw [h2, execute_test_case_vars]

/-- Running the cases never touches the variables table. -/
theorem runCases_vars (ext : Ext) (st : OrchSt) (cs : List (Nat × CaseBehavior)) :
    (runCases ext st cs).1.vars = st.vars := by
  induction cs generalizing st with
  | nil => rfl
  | cons c t ih =>
    obtain ⟨cid, b⟩ := c
    show (runCases ext st ((cid, b) :: t)).1.vars = st.vars
    unfold runCases
    dsimp only
    rw [ih]
    exact execute_single_test_async_vars ext st cid b

/-- The status-code assertion used by the batch scenarios below. -/
def rule200 : AssertionRule :=
  { atype := "status_code", operator := "eq", expected := jint 200 }

/-- Claim C1: in a parallel batch of five cases where case #3's exchange is a
transport timeout and the others return status 200 (whatever their bodies,
headers and latencies), the four siblings run to completion unaffected, the
aggregate reports `success_count = 4` and `failed_count = 1`, and exactly five
Result rows are persisted — one per (execution, test case) pair, the timeout
case's row bearing status `error`.  The per-case execution is the
spec-modelled `execute_test_case` (see its docstring: the method the tasks
call is absent from the backend sources). -/
theorem parallel_batch_fault_isolation (ext : Ext) (task_req_id : String)
    (tStart tFinish : Int) (uid : Option Nat)
    (r1 r2 r4 r5 : RawResponse) (m1 m2 m3 m4 m5 : ℚ) :
    let cases5 : List (Nat × CaseBehavior) :=
      [(11, .exchange (.response { r1 with status_code := 200 }) m1 [rule200]),
       (12, .exchange (.response { r2 with status_code := 200 }) m2 [rule200]),
       (13, .exchange .timeout m3 [rule200]),
       (14, .exchange (.response { r4 with status_code := 200 }) m4 [rule200]),
       (15, .exchange (.response { r5 with status_code := 200 }) m5 [rule200])]
    let out := execute_batch_tests ext {} task_req_id tStart tFinish uid cases5 [] true
    out.2.status = "completed" ∧
    out.2.execution_mode = "parallel" ∧
    out.2.total_count = 5 ∧
    out.2.success_count = 4 ∧
    out.2.failed_count = 1 ∧
    (out.2.results.map fun r => (r.test_case_id, r.status)) =
      [(11, "success"), (12, "success"), (13, "failed"), (14, "success"), (15, "success")] ∧
    out.1.rows.length = 5 ∧
    (out.1.rows.map fun r => (r.execution_id, r.test_case_id, r.status)) =
      [(1, 11, .pass), (2, 12, .pass), (3, 13, .error), (4, 14, .pass), (5, 15, .pass)] :=
  ⟨rfl, rfl, rfl, rfl, rfl, rfl, rfl, rfl⟩

/-- Claim C2 (code bug): a batch that materialized three distinct override
names as session-scoped temporary variables and finished less than 24 hours
after it started leaves all three names **active in its session's temporary
scope** — `cleanup_temporary_variables()` only deactivates rows older than its
24-hour default and never filters by session, so the claimed cleanup law
fails whatever the cases did and in either execution mode. -/
theorem batch_overrides_survive_cleanup (ext : Ext) (task_req_id : String)
    (tStart tFinish : Int) (uid : Option Nat) (cs : List (Nat × CaseBehavior))
    (parallel : Bool) (n1 n2 n3 v1 v2 v3 : String)
    (h12 : n1 ≠ n2) (h13 : n1 ≠ n3) (h23 : n2 ≠ n3)
    (hage : tFinish - tStart < 24 * 3600) :
    (execute_batch_tests ext {} task_req_id tStart tFinish uid cs
        [(n1, v1), (n2, v2), (n3, v3)] parallel).2.status = "completed" ∧
    hasActiveTemp (execute_batch_tests ext {} task_req_id tStart tFinish uid cs
        [(n1, v1), (n2, v2), (n3, v3)] parallel).1.vars
      ("batch_" ++ task_req_id ++ "_" ++ toString tStart) n1 = true ∧
    hasActiveTemp (execute_batch_tests ext {} task_req_id tStart tFinish uid cs
        [(n1, v1), (n2, v2), (n3, v3)] parallel).1.vars
      ("batch_" ++ task_req_id ++ "_" ++ toString tStart) n2 = true ∧
    hasActiveTemp (execute_batch_tests ext {} task_req_id tStart tFinish uid cs
        [(n1, v1), (n2, v2), (n3, v3)] parallel).1.vars
      ("batch_" ++ task_req_id ++ "_" ++ toString tStart) n3 = true := by
  have hu : ∀ u0 : Nat, createTempVars ({} : OrchSt) tStart
      ("batch_" ++ task_req_id ++ "_" ++ toString tStart) u0
      [(n1, v1), (n2, v2), (n3, v3)] =
      .ok { vars :=
              [{ id := 1, name := n1, value := v1, scope := .temporary,
                 session_id := some ("batch_" ++ task_req_id ++ "_" ++ toString tStart),
                 created_by := u0, created_at := tStart },
               { id := 2, name := n2, value := v2, scope := .temporary,
                 session_id := some ("batch_" ++ task_req_id ++ "_" ++ toString tStart),
                 created_by := u0, created_at := tStart },
               { id := 3, name := n3, value := v3, scope := .temporary,
                 session_id := some ("batch_" ++ task_req_id ++ "_" ++ toString tStart),
                 created_by := u0, created_at := tStart }],
            nextVarId := 4 } := by
    intro u0
    simp only [createTempVars, create_variable, List.find?]
    simp [h12, h13, h23, h12.symm, h13.symm, h23.symm]
  have hlt : ¬(tStart < tFinish - 24 * 3600) := by omega
  have hclean : (cleanup_temporary_variables
      [{ id := 1, name := n1, value := v1, scope := .temporary,
         session_id := some ("batch_" ++ task_req_id ++ "_" ++ toString tStart),
         created_by := uid.getD 0, created_at := tStart },
       { id := 2, name := n2, value := v2, scope := .temporary,
         session_id := some ("batch_" ++ task_req_id ++ "_" ++ toString tStart),
         created_by := uid.getD 0, created_at := tStart },
       { id := 3, name := n3, value := v3, scope := .temporary,
         session_id := some ("batch_" ++ task_req_id ++ "_" ++ toString tStart),
         created_by := uid.getD 0, created_at := tStart }] tFinish 24).1 =
      [{ id := 1, name := n1, value := v1, scope := .temporary,
         session_id := some ("batch_" ++ task_req_id ++ "_" ++ toString tStart),
         created_by := uid.getD 0, created_at := tStart },
       { id := 2, name := n2, value := v2, scope := .temporary,
         session_id := some ("batch_" ++ task_req_id ++ "_" ++ toString tStart),
         created_by := uid.getD 0, created_at := tStart },
       { id := 3, name := n3, value := v3, scope := .temporary,
         session_id := some ("batch_" ++ task_req_id ++ "_" ++ toString tStart),
         created_by := uid.getD 0, created_at := tStart }] := by
    unfold cleanup_temporary_variables
    dsimp only
    simp [hlt]
    omega
  have hstatus : (execute_batch_tests ext {} task_req_id tStart tFinish uid cs
      [(n1, v1), (n2, v2), (n3, v3)] parallel).2.status = "completed" := by
    unfold execute_batch_tests
    dsimp only
    rw [hu (uid.getD 0)]
  have hvars : (execute_batch_tests ext {} task_req_id tStart tFinish uid cs
      [(n1, v1), (n2, v2), (n3, v3)] parallel).1.vars =
      [{ id := 1, name := n1, value := v1, scope := .temporary,
         session_id := some ("batch_" ++ task_req_id ++ "_" ++ toString tStart),
         created_by := uid.getD 0, created_at := tStart },
       { id := 2, name := n2, value := v2, scope := .temporary,
         session_id := some ("batch_" ++ task_req_id ++ "_" ++ toString tStart),
         created_by := uid.getD 0, created_at := tStart },
       { id := 3, name := n3, value := v3, scope := .temporary,
         session_id := some ("batch_" ++ task_req_id ++ "_" ++ toString tStart),
         created_by := uid.getD 0, created_at := tStart }] := by
    unfold execute_batch_tests
    dsimp only
    rw [hu (uid.getD 0)]
    dsimp only
    rw [runCases_vars]
    exact hclean
  refine ⟨hstatus, ?_, ?_, ?_⟩ <;>
    rw [hvars] <;> simp [hasActiveTemp]

/-- Witness for C2 at a concrete failing input: three overrides `a`, `b`, `c`
created at t=100 with the batch finishing at t=200 are all still active for
the batch session after the cleanup call. -/
theorem batch_overrides_survive_cleanup_witness :
    (execute_batch_tests ext0 {} "t1" 100 200 (some 7) []
        [("a", "1"), ("b", "2"), ("c", "3")] true).2.status = "completed" ∧
    hasActiveTemp (execute_batch_tests ext0 {} "t1" 100 200 (some 7) []
        [("a", "1"), ("b", "2"), ("c", "3")] true).1.vars
      ("batch_" ++ "t1" ++ "_" ++ toString (100 : Int)) "a" = true ∧
    hasActiveTemp (execute_batch_tests ext0 {} "t1" 100 200 (some 7) []
        [("a", "1"), ("b", "2"), ("c", "3")] true).1.vars
      ("batch_" ++ "t1" ++ "_" ++ toString (100 : Int)) "b" = true ∧
    hasActiveTemp (execute_batch_tests ext0 {} "t1" 100 200 (some 7) []
        [("a", "1"), ("b", "2"), ("c", "3")] true).1.vars
      ("batch_" ++ "t1" ++ "_" ++ toString (100 : Int)) "c" = true :=
  batch_overrides_survive_cleanup ext0 "t1" 100 200 (some 7) [] true "a" "b" "c"
    "1" "2" "3" (by decide) (by decide) (by decide) (by decide)

/-- Claim C9 (code bug): the parallel batch path caps nothing — with the
default `max_concurrent_tests = 10`, a batch of 11 cases can reach a state
with all 11 HTTP exchanges simultaneously in flight (no step of the dispatch
acquires a semaphore: `execute_single_test_case` builds `HttpClient()`
directly and `http_client_pool` is unused, its `get_client` releasing its
permit before returning anyway); in general every pending exchange of every
batch may start at once. -/
theorem parallel_inflight_exceeds_bound :
    SchedReach (initSched 11) ⟨List.replicate 11 ExchPhase.inFlight⟩ ∧
    inFlightCount ⟨List.replicate 11 ExchPhase.inFlight⟩ = 11 ∧
    max_concurrent_tests_default < inFlightCount ⟨List.replicate 11 ExchPhase.inFlight⟩ ∧
    (∀ n : Nat, SchedReach (initSched n) ⟨List.replicate n ExchPhase.inFlight⟩) :=
  ⟨allInFlight_reachable 11, by decide, by decide, allInFlight_reachable⟩

end DayDreamer
